import Mathlib

/-!
Verification of the Density_analyser repository.

This file gives a shallow embedding, in Lean 4, of the parts of the
repository that the specification's claims talk about:

* `psychoacoustic_corrections.py` : `critical_band_masking`,
  `calculate_roughness`, `equal_loudness_correction`,
  `apply_loudness_correction`, `frequency_to_bark`;
* `densidade_intervalar.py` : `decaimento_exponencial_modificado`,
  `calcular_peso_perceptual_microtonal`, `calcular_densidade_intervalar`;
* `data_processor.py` : `calcular_densidade_intervalar_com_cents`,
  `calcular_densidade_intervalar_psicoaustica`, the input validation of
  `calcular_metricas`;
* `spectral_analysis.py` : `calculate_chroma_vector`;
* `microtonal.py` : `ESCALA_CROMATICA`, `extract_cents`, `is_valid_note`,
  `note_to_midi`;
* `utils/notes.py` : `NOTE_BASE_MIDI`, `normalize_note_string`, `to_sharp`,
  `extract_cents`, `note_to_midi`, `is_valid_note`.

Modelling conventions.  Python floats are modelled by `ℚ` where the code only
uses field operations and comparisons, and by `ℝ` where it uses
transcendental functions (`math.exp`, `np.arctan`, `2 ** x`).  Python
exceptions are modelled by `Option` (`none` = the call raises).  Strings are
modelled by `List Char` (with `String` wrappers at the API).  `unicodedata`'s
NFKC normalization is modelled as the identity, which is exact on the
character set of the note grammar (letters, digits, `#`, `b`, `+`, `-`,
arrows, music symbols are all NFKC-fixed points).
-/

namespace DensityAnalyser

/-! ## psychoacoustic_corrections.py -/

/-- Embedding of `psychoacoustic_corrections.frequency_to_bark` (the
Zwicker–Terhardt formula): `13*arctan(0.00076*f) + 3.5*arctan((f/7500)**2)`,
with `0.0` returned for non-positive frequencies. -/
noncomputable def frequency_to_bark (freq : ℝ) : ℝ :=
  if freq ≤ 0 then 0
  else 13 * Real.arctan ((76 / 100000) * freq) + (7 / 2) * Real.arctan ((freq / 7500) ^ 2)

/-- Embedding of `microtonal.midi_to_hz`: `440 * 2 ** ((m - 69) / 12)`. -/
noncomputable def midi_to_hz (midi_pitch : ℝ) : ℝ :=
  440 * (2 : ℝ) ^ ((midi_pitch - 69) / 12)

/-- Embedding of `psychoacoustic_corrections.critical_band_masking`.

The pitch → Bark conversion (`frequency_to_bark (midi_to_hz p)` in the
source) is abstracted into the parameter `bark`, so that the combinatorial
masking logic can be stated over any linear ordered field; the source's
instantiation is `bark := frequency_to_bark ∘ midi_to_hz` over `ℝ`.

The Python code copies `amps` into `masked_amps` and, inside the double loop,
multiplies `masked_amps[i]` while reading only `amps` and `barks`; entry `i`
is therefore the fold below of the row of `j`s over the initial amplitude,
and the whole result is the map of that fold over `i`. -/
def critical_band_masking {α : Type} [LinearOrderedField α] (bark : α → α)
    (pitches amplitudes : List α) (masking_slope : α) : List α :=
  if pitches.length = 0 ∨ amplitudes.length = 0 then []
  else
    let barks : List α := pitches.map bark
    (List.range pitches.length).map (fun i =>
      (List.range pitches.length).foldl (fun acc j =>
        let bark_dist := |barks.getD i 0 - barks.getD j 0|
        if i ≠ j ∧ bark_dist < 1 ∧ amplitudes.getD i 0 < amplitudes.getD j 0 then
          acc * (1 - (1 - bark_dist) * masking_slope)
        else acc) (amplitudes.getD i 0))

/-- Embedding of `psychoacoustic_corrections.equal_loudness_correction`
(simplified Fletcher–Munson correction, clamped to a minimum of `0.1`). -/
noncomputable def equal_loudness_correction (frequency : ℝ) : ℝ :=
  if frequency ≤ 0 then 1
  else
    let correction : ℝ :=
      if frequency < 200 then 1 + (200 - frequency) / 200 * (1 / 2)
      else if frequency < 1000 then 1 + (1000 - frequency) / 800 * (1 / 5)
      else if 4000 < frequency then
        let c := 1 + (frequency - 4000) / 4000 * (3 / 10)
        if 10000 < frequency then c * ((20000 - frequency) / 10000) else c
      else 1
    max (1 / 10) correction

/-- Embedding of `psychoacoustic_corrections.apply_loudness_correction`:
`[a * c for a, c in zip(amplitudes, corrections)]`. -/
noncomputable def apply_loudness_correction (pitches amplitudes : List ℝ) : List ℝ :=
  if pitches.length = 0 then []
  else
    let corrections := pitches.map (fun p => equal_loudness_correction (midi_to_hz p))
    (amplitudes.zip corrections).map (fun ac => ac.1 * ac.2)

/-- Embedding of `psychoacoustic_corrections.calculate_roughness`
(simplified Plomp–Levelt model, summed over unordered pairs). -/
noncomputable def calculate_roughness (pitches amplitudes : List ℝ) : ℝ :=
  if pitches.length < 2 then 0
  else
    let freqs := pitches.map midi_to_hz
    let n := pitches.length
    ∑ i in Finset.range n, ∑ j in Finset.Ico (i + 1) n,
      (let fi := freqs.getD i 0
       let fj := freqs.getD j 0
       let freq_mean := (fi + fj) / 2
       if freq_mean = 0 then 0
       else
         let relative_diff := |fi - fj| / freq_mean * 100
         if relative_diff < 30 then
           let x := relative_diff / (13 / 2)
           (if x < 1 then x * Real.exp (1 - x) else Real.exp (-(x - 1) * (1 / 2))) *
             min (amplitudes.getD i 0) (amplitudes.getD j 0)
         else 0)

/-! ## densidade_intervalar.py : decay function -/

/-- Embedding of `densidade_intervalar.decaimento_exponencial_modificado`
with an explicit decay parameter (`lamb=None`, which loads the persisted
calibration value, is out of scope: all claims quantify over `lamb`).
Unison (`delta = 0`) returns the maximum contribution `1.0`; otherwise the
value is `exp(-lamb * delta)`. -/
noncomputable def decaimento_exponencial_modificado (delta lamb : ℝ) : ℝ :=
  if delta = 0 then 1 else Real.exp (-lamb * delta)

/-- Embedding of `densidade_intervalar.calcular_peso_perceptual_microtonal`:
a register factor times an interval-size factor. -/
noncomputable def calcular_peso_perceptual_microtonal (midi1 midi2 delta_semitons : ℝ) : ℝ :=
  let registro_medio := (midi1 + midi2) / 2
  let peso_registro : ℝ :=
    if 84 < registro_medio then 13 / 10
    else if 72 < registro_medio then 11 / 10
    else if registro_medio < 48 then 4 / 5
    else 1
  let peso_intervalo : ℝ :=
    if delta_semitons ≤ 1 then 3 / 2
    else if delta_semitons ≤ 2 then 13 / 10
    else if delta_semitons ≤ 4 then 11 / 10
    else if 12 ≤ delta_semitons then 9 / 10
    else 1
  peso_registro * peso_intervalo

/-! ## spectral_analysis.py : chroma vector -/

/-- Python's `round` (used as `int(round(p))` in
`calculate_chroma_vector`): round half to even. -/
def pyRound (q : ℚ) : ℤ :=
  let f := ⌊q⌋
  let r := q - f
  if r < 1 / 2 then f
  else if 1 / 2 < r then f + 1
  else if f % 2 = 0 then f else f + 1

/-- Pitch class of a (fractional) MIDI value: `int(round(p)) % 12`.
Python's `%` on a positive modulus is non-negative, as is Lean's `Int.emod`. -/
def pitch_class (p : ℚ) : ℕ := ((pyRound p) % 12).toNat

/-- Accumulation step of the chroma loop: `chroma[k] += a`. -/
def addAt (v : List ℚ) (k : ℕ) (a : ℚ) : List ℚ := v.set k (v.getD k 0 + a)

/-- Amplitudes actually used by `calculate_chroma_vector`: the argument if
given, else `np.ones_like(pitches)`. -/
def chroma_amps (pitches : List ℚ) (amplitudes : Option (List ℚ)) : List ℚ :=
  match amplitudes with
  | some a => a
  | none => pitches.map (fun _ => 1)

/-- Accumulation loop of `calculate_chroma_vector`: starting from
`np.zeros(12)`, add each pitch's amplitude into the pitch class of its
rounded MIDI value.  `zip` truncates to the shorter of the two lists, as in
Python. -/
def chroma_accum (pitches : List ℚ) (amplitudes : Option (List ℚ)) : List ℚ :=
  (pitches.zip (chroma_amps pitches amplitudes)).foldl
    (fun v pa => addAt v (pitch_class pa.1) pa.2) (List.replicate 12 0)

/-- Embedding of `spectral_analysis.calculate_chroma_vector`: accumulate each
pitch's amplitude into the pitch class of its rounded MIDI value, then divide
by the total when it is positive.  (`_safe_array`'s NaN→0 replacement and the
`isnan`/`isinf` guard are vacuous over `ℚ`, where every value is finite.) -/
def calculate_chroma_vector (pitches : List ℚ) (amplitudes : Option (List ℚ)) : List ℚ :=
  let chroma := chroma_accum pitches amplitudes
  let total := chroma.sum
  if 0 < total then chroma.map (fun x => x / total) else chroma

/-! ## Theorems: decay function (C4) -/

/-- C4: `decaimento_exponencial_modificado` returns exactly `1.0` at
`delta = 0` for every `lamb` in `(0, 1]`; for fixed `lamb > 0` it is strictly
decreasing in `delta` over `delta > 0`, where its value is
`exp(-lamb * delta)`. -/
theorem decaimento_unison_one_and_strictly_decreasing (lamb : ℝ)
    (h0 : 0 < lamb) (h1 : lamb ≤ 1) :
    decaimento_exponencial_modificado 0 lamb = 1 ∧
    (∀ d : ℝ, 0 < d →
      decaimento_exponencial_modificado d lamb = Real.exp (-lamb * d)) ∧
    (∀ d₁ d₂ : ℝ, 0 < d₁ → d₁ < d₂ →
      decaimento_exponencial_modificado d₂ lamb <
        decaimento_exponencial_modificado d₁ lamb) := by
  refine ⟨by simp [decaimento_exponencial_modificado], fun d hd => ?_, fun d₁ d₂ h₁ h₂ => ?_⟩
  · simp [decaimento_exponencial_modificado, ne_of_gt hd]
  · have hd₂ : (0 : ℝ) < d₂ := lt_trans h₁ h₂
    simp only [decaimento_exponencial_modificado, if_neg hd₂.ne', if_neg h₁.ne']
    exact Real.exp_lt_exp.mpr (by nlinarith)

/-- Witness for C4 at `lamb = 1`, `d = 1 < 2`. -/
theorem decaimento_unison_one_and_strictly_decreasing_witness :
    (0 : ℝ) < 1 ∧ (1 : ℝ) ≤ 1 ∧
    (decaimento_exponencial_modificado 0 1 = 1 ∧
     (∀ d : ℝ, 0 < d →
       decaimento_exponencial_modificado d 1 = Real.exp (-1 * d)) ∧
     (∀ d₁ d₂ : ℝ, 0 < d₁ → d₁ < d₂ →
       decaimento_exponencial_modificado d₂ 1 <
         decaimento_exponencial_modificado d₁ 1)) :=
  ⟨by norm_num, by norm_num,
    decaimento_unison_one_and_strictly_decreasing 1 (by norm_num) (by norm_num)⟩

/-! ## Theorems: critical-band masking (C8, C10) -/

/-- C8: for a pair of pitches whose Bark-scale distance exceeds 1 Bark,
`critical_band_masking` applies no attenuation: both output amplitudes equal
the corresponding input amplitudes exactly.  The statement is parametric in
the pitch → Bark map `bark`; the source instantiates it with
`frequency_to_bark ∘ midi_to_hz`. -/
theorem critical_band_masking_wide_pair_no_attenuation {α : Type}
    [LinearOrderedField α] (bark : α → α) (p₁ p₂ a₁ a₂ masking_slope : α)
    (h : 1 < |bark p₁ - bark p₂|) :
    critical_band_masking bark [p₁, p₂] [a₁, a₂] masking_slope = [a₁, a₂] := by
  have h12 : ¬ |bark p₁ - bark p₂| < 1 := not_lt.mpr (le_of_lt h)
  have h21 : ¬ |bark p₂ - bark p₁| < 1 := by rw [abs_sub_comm]; exact h12
  simp only [critical_band_masking, List.length_cons, List.length_nil]
  norm_num [show List.range 2 = [0, 1] from rfl, List.getD, h12, h21]

/-- Witness for C8 at `bark = id` over `ℚ`, pitches `0, 3`, amplitudes
`2, 5`, slope `1/4`. -/
theorem critical_band_masking_wide_pair_no_attenuation_witness :
    1 < |(fun x : ℚ => x) 0 - (fun x : ℚ => x) 3| ∧
    critical_band_masking (fun x : ℚ => x) [0, 3] [2, 5] (1 / 4) = [2, 5] :=
  ⟨by norm_num,
    critical_band_masking_wide_pair_no_attenuation (fun x : ℚ => x) 0 3 2 5 (1 / 4)
      (by norm_num)⟩

/-- The inner fold of `critical_band_masking` only multiplies the
accumulator by factors in `[0, 1]`, so it stays in `[0, acc]`. -/
theorem critical_band_masking_fold_bound {α : Type} [LinearOrderedField α]
    (barks amplitudes : List α) (masking_slope : α) (i : ℕ)
    (hs0 : 0 ≤ masking_slope) (hs1 : masking_slope ≤ 1) :
    ∀ (l : List ℕ) (acc : α), 0 ≤ acc →
      0 ≤ l.foldl (fun acc j =>
          let bark_dist := |barks.getD i 0 - barks.getD j 0|
          if i ≠ j ∧ bark_dist < 1 ∧ amplitudes.getD i 0 < amplitudes.getD j 0 then
            acc * (1 - (1 - bark_dist) * masking_slope)
          else acc) acc ∧
      l.foldl (fun acc j =>
          let bark_dist := |barks.getD i 0 - barks.getD j 0|
          if i ≠ j ∧ bark_dist < 1 ∧ amplitudes.getD i 0 < amplitudes.getD j 0 then
            acc * (1 - (1 - bark_dist) * masking_slope)
          else acc) acc ≤ acc := by
  intro l
  induction l with
  | nil => intro acc hacc; exact ⟨hacc, le_refl acc⟩
  | cons j t ih =>
    intro acc hacc
    simp only [List.foldl_cons]
    by_cases hc : i ≠ j ∧ |barks.getD i 0 - barks.getD j 0| < 1 ∧
        amplitudes.getD i 0 < amplitudes.getD j 0
    · have hd0 : (0 : α) ≤ |barks.getD i 0 - barks.getD j 0| := abs_nonneg _
      have hd1 : |barks.getD i 0 - barks.getD j 0| < 1 := hc.2.1
      have hf0 : 0 ≤ 1 - (1 - |barks.getD i 0 - barks.getD j 0|) * masking_slope := by
        nlinarith
      have hf1 : 1 - (1 - |barks.getD i 0 - barks.getD j 0|) * masking_slope ≤ 1 := by
        nlinarith
      have hacc' : 0 ≤ acc * (1 - (1 - |barks.getD i 0 - barks.getD j 0|) * masking_slope) :=
        mul_nonneg hacc hf0
      have hle : acc * (1 - (1 - |barks.getD i 0 - barks.getD j 0|) * masking_slope) ≤ acc := by
        nlinarith
      simp only [if_pos hc]
      exact ⟨(ih _ hacc').1, le_trans (ih _ hacc').2 hle⟩
    · simp only [if_neg hc]
      exact ih acc hacc

/-- Entry `i` of a list with non-negative members, read with default `0`, is
non-negative. -/
theorem getD_nonneg_of_forall {α : Type} [LinearOrderedField α]
    (l : List α) (h : ∀ a ∈ l, 0 ≤ a) (i : ℕ) : 0 ≤ l.getD i 0 := by
  by_cases hi : i < l.length
  · rw [List.getD_eq_getElem _ _ hi]
    exact h _ (List.getElem_mem hi)
  · rw [List.getD_eq_default _ _ (not_lt.mp hi)]

/-- C10: `critical_band_masking` never amplifies: with non-negative input
amplitudes and a masking slope in `[0, 1]`, every output amplitude is
non-negative and at most the corresponding input amplitude (entries are read
with default `0`, and indices beyond the output give `0 ≤ 0`). -/
theorem critical_band_masking_never_amplifies {α : Type} [LinearOrderedField α]
    (bark : α → α) (pitches amplitudes : List α) (masking_slope : α)
    (hs0 : 0 ≤ masking_slope) (hs1 : masking_slope ≤ 1)
    (ha : ∀ a ∈ amplitudes, 0 ≤ a) (i : ℕ) :
    0 ≤ (critical_band_masking bark pitches amplitudes masking_slope).getD i 0 ∧
    (critical_band_masking bark pitches amplitudes masking_slope).getD i 0 ≤
      amplitudes.getD i 0 := by
  have hai : 0 ≤ amplitudes.getD i 0 := getD_nonneg_of_forall amplitudes ha i
  simp only [critical_band_masking]
  by_cases hz : pitches.length = 0 ∨ amplitudes.length = 0
  · rw [if_pos hz]
    exact ⟨by simp, by simpa using hai⟩
  · rw [if_neg hz]
    by_cases hi : i < pitches.length
    · rw [List.getD_eq_getElem _ _ (by simpa using hi)]
      simp only [List.getElem_map, List.getElem_range]
      exact critical_band_masking_fold_bound (pitches.map bark) amplitudes
        masking_slope i hs0 hs1 _ _ hai
    · rw [List.getD_eq_default _ _ (by simpa using not_lt.mp hi)]
      exact ⟨le_refl 0, hai⟩

/-- Witness for C10 over `ℚ`: `bark = id`, pitches `[60, 60.5]`, amplitudes
`[1, 2]`, slope `1/4`, index `0` (here masking does fire, and the output
entry is `1 * (1 - (1 - 1/2) * 1/4)`). -/
theorem critical_band_masking_never_amplifies_witness :
    (0 : ℚ) ≤ 1 / 4 ∧ (1 / 4 : ℚ) ≤ 1 ∧ (∀ a ∈ [(1 : ℚ), 2], 0 ≤ a) ∧
    (0 ≤ (critical_band_masking (fun x : ℚ => x) [60, 121 / 2] [1, 2] (1 / 4)).getD 0 0 ∧
     (critical_band_masking (fun x : ℚ => x) [60, 121 / 2] [1, 2] (1 / 4)).getD 0 0 ≤
       ([(1 : ℚ), 2]).getD 0 0) :=
  ⟨by norm_num, by norm_num, by decide,
    critical_band_masking_never_amplifies (fun x : ℚ => x) [60, 121 / 2] [1, 2]
      (1 / 4) (by norm_num) (by norm_num) (by decide) 0⟩

/-! ## Theorems: chroma vector (C9) -/

/-- Pitch classes land in `0..11`: `Int.emod` with modulus `12` is
non-negative and below `12`, as is Python's `%`. -/
theorem pitch_class_lt_twelve (p : ℚ) : pitch_class p < 12 := by
  unfold pitch_class
  have h1 := Int.emod_lt_of_pos (pyRound p) (by norm_num : (0 : ℤ) < 12)
  have h2 := Int.emod_nonneg (pyRound p) (by norm_num : (12 : ℤ) ≠ 0)
  omega

/-- `addAt` preserves the length. -/
theorem addAt_length (v : List ℚ) (k : ℕ) (a : ℚ) :
    (addAt v k a).length = v.length := by
  simp [addAt]

/-- `addAt` at an in-range index adds `a` to the list sum. -/
theorem addAt_sum (v : List ℚ) : ∀ (k : ℕ), k < v.length → ∀ (a : ℚ),
    (addAt v k a).sum = v.sum + a := by
  induction v with
  | nil => intro k hk; simp at hk
  | cons x t ih =>
    intro k hk a
    cases k with
    | zero =>
      simp only [addAt, List.set_cons_zero, List.getD_cons_zero, List.sum_cons]
      ring
    | succ k =>
      have hk' : k < t.length := by simpa using hk
      simp only [addAt, List.set_cons_succ, List.getD_cons_succ, List.sum_cons]
      have ht := ih k hk' a
      simp only [addAt] at ht
      rw [ht]
      ring

/-- The chroma accumulation loop keeps length `12` and adds up exactly the
amplitudes it consumes. -/
theorem chroma_fold_length_sum (ps : List (ℚ × ℚ)) :
    ∀ v : List ℚ, v.length = 12 →
      (ps.foldl (fun v pa => addAt v (pitch_class pa.1) pa.2) v).length = 12 ∧
      (ps.foldl (fun v pa => addAt v (pitch_class pa.1) pa.2) v).sum =
        v.sum + (ps.map Prod.snd).sum := by
  induction ps with
  | nil => intro v hv; simp [hv]
  | cons pa t ih =>
    intro v hv
    simp only [List.foldl_cons, List.map_cons, List.sum_cons]
    have hlen : (addAt v (pitch_class pa.1) pa.2).length = 12 := by
      rw [addAt_length, hv]
    obtain ⟨h1, h2⟩ := ih _ hlen
    refine ⟨h1, ?_⟩
    rw [h2, addAt_sum v _ (by rw [hv]; exact pitch_class_lt_twelve _) pa.2]
    ring

/-- Dividing every entry by `t` divides the sum by `t`. -/
theorem sum_map_div (l : List ℚ) (t : ℚ) :
    (l.map (fun x => x / t)).sum = l.sum / t := by
  induction l with
  | nil => simp
  | cons x xs ih =>
    simp only [List.map_cons, List.sum_cons, ih]
    ring

/-- C9: whenever the total accumulated amplitude is positive,
`calculate_chroma_vector` returns exactly `12` entries whose sum is exactly
`1`, hence within `1e-6` of `1.0`. -/
theorem calculate_chroma_vector_normalized (pitches : List ℚ)
    (amplitudes : Option (List ℚ))
    (h : 0 < ((pitches.zip (chroma_amps pitches amplitudes)).map Prod.snd).sum) :
    (calculate_chroma_vector pitches amplitudes).length = 12 ∧
    (calculate_chroma_vector pitches amplitudes).sum = 1 ∧
    |(calculate_chroma_vector pitches amplitudes).sum - 1| ≤ 1 / 1000000 := by
  obtain ⟨hlen, hsum⟩ := chroma_fold_length_sum
    (pitches.zip (chroma_amps pitches amplitudes)) (List.replicate 12 0) (by simp)
  have hsum' : (chroma_accum pitches amplitudes).sum =
      ((pitches.zip (chroma_amps pitches amplitudes)).map Prod.snd).sum := by
    simpa [chroma_accum] using hsum
  have hpos : 0 < (chroma_accum pitches amplitudes).sum := by rw [hsum']; exact h
  have hres : calculate_chroma_vector pitches amplitudes =
      (chroma_accum pitches amplitudes).map
        (fun x => x / (chroma_accum pitches amplitudes).sum) := by
    simp only [calculate_chroma_vector, if_pos hpos]
  have hlen' : (chroma_accum pitches amplitudes).length = 12 := by
    simpa [chroma_accum] using hlen
  have hsum1 : (calculate_chroma_vector pitches amplitudes).sum = 1 := by
    rw [hres, sum_map_div, div_self (ne_of_gt hpos)]
  refine ⟨?_, hsum1, ?_⟩
  · rw [hres, List.length_map, hlen']
  · rw [hsum1]
    norm_num

/-- Witness for C9: pitches `C4, E4`, amplitudes `1` and `3`. -/
theorem calculate_chroma_vector_normalized_witness :
    0 < (([(60 : ℚ), 64].zip (chroma_amps [60, 64] (some [1, 3]))).map Prod.snd).sum ∧
    ((calculate_chroma_vector [60, 64] (some [1, 3])).length = 12 ∧
     (calculate_chroma_vector [60, 64] (some [1, 3])).sum = 1 ∧
     |(calculate_chroma_vector [60, 64] (some [1, 3])).sum - 1| ≤ 1 / 1000000) :=
  ⟨by norm_num [chroma_amps],
    calculate_chroma_vector_normalized [60, 64] (some [1, 3])
      (by norm_num [chroma_amps])⟩

/-! ## microtonal.py : character classes and regex shapes

The note grammar of `microtonal.py` is given by four anchored regular
expressions over character classes `[A-Ga-g]`, `[#b]` / `[#♯b]`, `[+-]`,
`[↑↓]`, `[0-9]`.  Anchored matching of these fixed-shape patterns is
embedded as pattern matching on the underlying `List Char`; the character
classes become explicit finite character lists.  Where two regex
alternatives could both apply to a string of the same length, their
distinguishing character classes are disjoint, so the embedded
order-independent dispatch agrees with Python's try-in-order matching. -/

def lettersAG : List Char :=
  ['A', 'B', 'C', 'D', 'E', 'F', 'G', 'a', 'b', 'c', 'd', 'e', 'f', 'g']

/-- Character class `[A-Ga-g]`. -/
def isLetterAG (c : Char) : Bool := decide (c ∈ lettersAG)

def digitChars : List Char := ['0', '1', '2', '3', '4', '5', '6', '7', '8', '9']

/-- Character class `[0-9]`. -/
def isDigitC (c : Char) : Bool := decide (c ∈ digitChars)

/-- Numeric value of a digit character (`int(octave)` on a one-character
octave capture). -/
def digitVal (c : Char) : ℕ :=
  if c = '0' then 0 else if c = '1' then 1 else if c = '2' then 2
  else if c = '3' then 3 else if c = '4' then 4 else if c = '5' then 5
  else if c = '6' then 6 else if c = '7' then 7 else if c = '8' then 8 else 9

/-- Character class `[#b]`. -/
def isAccHB (c : Char) : Bool := c = '#' ∨ c = 'b'

/-- Character class `[#♯b]`. -/
def isAccHSB (c : Char) : Bool := c = '#' ∨ c = '♯' ∨ c = 'b'

/-- Character class `[+-]`. -/
def isSignC (c : Char) : Bool := c = '+' ∨ c = '-'

/-- Character class `[↑↓]`. -/
def isArrowC (c : Char) : Bool := c = '↑' ∨ c = '↓'

/-- Python's `str.capitalize()` on a regex-captured base (a letter followed
by an optional accidental): upper-case the first character, lower-case the
rest. -/
def capBase : List Char → List Char
  | [] => []
  | l :: t => l.toUpper :: t.map Char.toLower

/-- `nota.replace("♯", "#")`. -/
def replSharpChar (c : Char) : Char := if c = '♯' then '#' else c

/-- Anchored match of `([A-Ga-g]acc?)(\d)` against the whole string,
returning the base and the octave digit. -/
def matchPlainNote (acc : Char → Bool) : List Char → Option (List Char × Char)
  | [l, d] => if isLetterAG l && isDigitC d then some ([l], d) else none
  | [l, a, d] =>
    if isLetterAG l && acc a && isDigitC d then some ([l, a], d) else none
  | _ => none

/-- Anchored match of `([A-Ga-g]acc?)(mk)(\d)` against the whole string,
returning base, marker and octave digit. -/
def matchMarkedNote (mk acc : Char → Bool) :
    List Char → Option (List Char × Char × Char)
  | [l, m, d] =>
    if isLetterAG l && mk m && isDigitC d then some ([l], m, d) else none
  | [l, a, m, d] =>
    if isLetterAG l && acc a && mk m && isDigitC d then
      some ([l, a], m, d)
    else none
  | _ => none

/-- Signed cents value from a sign character and a magnitude. -/
def signedCents (sg : Char) (v : ℕ) : ℤ := if sg = '+' then (v : ℤ) else -(v : ℤ)

/-- Anchored match of `([A-Ga-g]acc?\d)([+-]\d{1,2})c`, returning the base
(including the octave digit) and the signed cents.  The two readings of a
six-character string (accidental with one cents digit / no accidental with
two cents digits) are distinguished by the disjoint classes of the second
character, as in the regex. -/
def matchCentsPlain (acc : Char → Bool) : List Char → Option (List Char × ℤ)
  | [l, d, sg, e1, 'c'] =>
    if isLetterAG l && isDigitC d && isSignC sg && isDigitC e1 then
      some ([l, d], signedCents sg (digitVal e1))
    else none
  | [l, x2, x3, x4, x5, 'c'] =>
    if isLetterAG l && acc x2 && isDigitC x3 && isSignC x4 && isDigitC x5 then
      some ([l, x2, x3], signedCents x4 (digitVal x5))
    else if isLetterAG l && isDigitC x2 && isSignC x3 && isDigitC x4 && isDigitC x5 then
      some ([l, x2], signedCents x3 (10 * digitVal x4 + digitVal x5))
    else none
  | [l, a, d, sg, e1, e2, 'c'] =>
    if isLetterAG l && acc a && isDigitC d && isSignC sg && isDigitC e1 && isDigitC e2 then
      some ([l, a, d], signedCents sg (10 * digitVal e1 + digitVal e2))
    else none
  | _ => none

/-- Anchored match of `([A-Ga-g]acc?(mk)\d)([+-]\d{1,2})c` (a marked note
followed by a cents suffix), returning the base (including marker and octave
digit) and the signed cents.  Ambiguity between the two seven-character
readings is again resolved by disjoint classes of the second character. -/
def matchCentsMarked (mk acc : Char → Bool) : List Char → Option (List Char × ℤ)
  | [l, m, d, sg, e1, 'c'] =>
    if isLetterAG l && mk m && isDigitC d && isSignC sg && isDigitC e1 then
      some ([l, m, d], signedCents sg (digitVal e1))
    else none
  | [l, x2, x3, x4, x5, x6, 'c'] =>
    if isLetterAG l && acc x2 && mk x3 && isDigitC x4 && isSignC x5 && isDigitC x6 then
      some ([l, x2, x3, x4], signedCents x5 (digitVal x6))
    else if isLetterAG l && mk x2 && isDigitC x3 && isSignC x4 && isDigitC x5 &&
        isDigitC x6 then
      some ([l, x2, x3], signedCents x4 (10 * digitVal x5 + digitVal x6))
    else none
  | [l, a, m, d, sg, e1, e2, 'c'] =>
    if isLetterAG l && acc a && mk m && isDigitC d && isSignC sg && isDigitC e1 &&
        isDigitC e2 then
      some ([l, a, m, d], signedCents sg (10 * digitVal e1 + digitVal e2))
    else none
  | _ => none

namespace Microtonal

/-- `microtonal.ESCALA_CROMATICA`: note base → chromatic index. -/
def ESCALA_CROMATICA : List (List Char × ℚ) :=
  [(['C'], 0), (['C', '#'], 1), (['D', 'b'], 1),
   (['D'], 2), (['D', '#'], 3), (['E', 'b'], 3),
   (['E'], 4),
   (['F'], 5), (['F', '#'], 6), (['G', 'b'], 6),
   (['G'], 7), (['G', '#'], 8), (['A', 'b'], 8),
   (['A'], 9), (['A', '#'], 10), (['B', 'b'], 10),
   (['B'], 11)]

/-- Dictionary lookup in `ESCALA_CROMATICA`. -/
def lookupEscala (s : List Char) : Option ℚ :=
  (ESCALA_CROMATICA.find? (fun e => e.1 == s)).map (fun e => e.2)

/-- Python's `if "♯" in nota and "#" in base_note: base_note.replace("#", "♯")`
at the end of `microtonal.extract_cents`. -/
def restoreSharp (orig base : List Char) : List Char :=
  if '♯' ∈ orig ∧ '#' ∈ base then
    base.map (fun c => if c = '#' then '♯' else c)
  else base

/-- Embedding of `microtonal.extract_cents`: try `_RE_CENTS` (accidental
class `[#♯b]`) on the string itself, then the three auxiliary patterns
(classes `[#b]`, arrow, sign) on its `♯→#` normalization, restoring `♯` in
the returned base; otherwise no cents. -/
def extract_cents (nota : List Char) : List Char × ℤ :=
  if 'c' ∉ nota then (nota, 0)
  else
    match matchCentsPlain isAccHSB nota with
    | some bv => bv
    | none =>
      let processada := nota.map replSharpChar
      match matchCentsPlain isAccHB processada with
      | some (b, v) => (restoreSharp nota b, v)
      | none =>
        match matchCentsMarked isArrowC isAccHB processada with
        | some (b, v) => (restoreSharp nota b, v)
        | none =>
          match matchCentsMarked isSignC isAccHB processada with
          | some (b, v) => (restoreSharp nota b, v)
          | none => (nota, 0)

/-- MIDI value of an up-arrow / down-arrow note (steps 2 and 3 of
`microtonal.note_to_midi`): `(octave + 1) * 12 + ESCALA_CROMATICA[base] ∓ 0.5`,
`none` when the pattern does not match or the base is missing from the
scale (Python then falls through to the next pattern and ultimately to the
fallback; the four patterns match disjoint shapes). -/
def arrowVal (arrow : Char) (delta : ℚ) (note : List Char) : Option ℚ :=
  match matchMarkedNote (fun c => c = arrow) isAccHB note with
  | some (b, _, d) =>
    (lookupEscala (capBase b)).map
      (fun v => ((digitVal d : ℚ) + 1) * 12 + v + delta)
  | none => none

/-- MIDI value of a `+`/`-` quarter-tone note (step 4 of
`microtonal.note_to_midi`). -/
def quarterVal (note : List Char) : Option ℚ :=
  match matchMarkedNote isSignC isAccHB note with
  | some (b, m, d) =>
    (lookupEscala (capBase b)).map
      (fun v => ((digitVal d : ℚ) + 1) * 12 + v + (if m = '+' then 1 / 2 else -(1 / 2)))
  | none => none

/-- MIDI value of a standard note (step 5 of `microtonal.note_to_midi`). -/
def standardVal (note : List Char) : Option ℚ :=
  match matchPlainNote isAccHB note with
  | some (b, d) =>
    (lookupEscala (capBase b)).map (fun v => ((digitVal d : ℚ) + 1) * 12 + v)
  | none => none

/-- Steps 2–5 of `microtonal.note_to_midi` on a `♯`-normalized, cents-free
string; `none` means the final fallback (warn and return 60.0) fires. -/
def note_to_midi_core (note : List Char) : Option ℚ :=
  ((((arrowVal '↑' (-(1 / 2)) note).orElse
    (fun _ => arrowVal '↓' (1 / 2) note)).orElse
    (fun _ => quarterVal note)).orElse
    (fun _ => standardVal note))

/-- Embedding of `microtonal.note_to_midi`.  The fuel argument bounds the
`note_to_midi(base_note) + cents/100` recursion of step 1; the recursion
depth is at most 2 because `extract_cents` returns a cents-free base (its
base always ends with a digit, never with `c`), so fuel 2 is exact. -/
def note_to_midi_aux : ℕ → List Char → ℚ
  | 0, _ => 60
  | fuel + 1, note =>
    if note = [] then 60
    else
      let note' := note.map replSharpChar
      let bc := extract_cents note'
      if bc.2 ≠ 0 then note_to_midi_aux fuel bc.1 + (bc.2 : ℚ) / 100
      else (note_to_midi_core note').getD 60

/-- `microtonal.note_to_midi` on a Lean `String`. -/
def note_to_midi (s : String) : ℚ := note_to_midi_aux 2 s.data

/-- Embedding of `microtonal.is_valid_note`: the four compiled patterns are
checked on the `#→♯` normalization of the input, and the two auxiliary
"complex case" patterns on both the raw input and the normalization. -/
def is_valid_note (s : String) : Bool :=
  let nota := s.data
  if nota = [] then false
  else
    let normalizada := nota.map (fun c => if c = '#' then '♯' else c)
    (matchPlainNote isAccHSB normalizada).isSome ||
    (matchMarkedNote isSignC isAccHSB normalizada).isSome ||
    (matchMarkedNote isArrowC isAccHSB normalizada).isSome ||
    (matchCentsPlain isAccHSB normalizada).isSome ||
    (matchCentsMarked isArrowC isAccHSB nota).isSome ||
    (matchCentsMarked isArrowC isAccHSB normalizada).isSome ||
    (matchCentsMarked isSignC isAccHSB nota).isSome ||
    (matchCentsMarked isSignC isAccHSB normalizada).isSome

end Microtonal

namespace UtilsNotes

/-- `utils.notes.NOTE_BASE_MIDI`: semitone index (with `±0.5` quarter-tone
codes) inside the octave, including the enharmonic alternatives. -/
def NOTE_BASE_MIDI : List (List Char × ℚ) :=
  [(['C'], 0), (['C', '#'], 1), (['D', 'b'], 1),
   (['D'], 2), (['D', '#'], 3), (['E', 'b'], 3),
   (['E'], 4), (['E', '#'], 5),
   (['F'], 5), (['F', '#'], 6), (['G', 'b'], 6),
   (['G'], 7), (['G', '#'], 8), (['A', 'b'], 8),
   (['A'], 9), (['A', '#'], 10), (['B', 'b'], 10),
   (['B'], 11), (['B', '#'], 0),
   (['C', '-'], 1 / 2), (['C', '+'], -(1 / 2)),
   (['C', '#', '-'], 3 / 2), (['C', '#', '+'], 1 / 2),
   (['D', '-'], 5 / 2), (['D', '+'], 3 / 2),
   (['D', '#', '-'], 7 / 2), (['D', '#', '+'], 5 / 2),
   (['E', '-'], 9 / 2), (['E', '+'], 7 / 2),
   (['F', '-'], 11 / 2), (['F', '+'], 9 / 2),
   (['F', '#', '-'], 13 / 2), (['F', '#', '+'], 11 / 2),
   (['G', '-'], 15 / 2), (['G', '+'], 13 / 2),
   (['G', '#', '-'], 17 / 2), (['G', '#', '+'], 15 / 2),
   (['A', '-'], 19 / 2), (['A', '+'], 17 / 2),
   (['A', '#', '-'], 21 / 2), (['A', '#', '+'], 19 / 2),
   (['B', '-'], 23 / 2), (['B', '+'], 21 / 2),
   (['C', 'b'], 11), (['C', 'b', '-'], 23 / 2), (['C', 'b', '+'], 21 / 2),
   (['F', 'b'], 4), (['F', 'b', '-'], 9 / 2), (['F', 'b', '+'], 7 / 2),
   (['E', '#', '-'], 11 / 2), (['B', '#', '-'], 1 / 2),
   (['E', '#', '+'], 9 / 2), (['B', '#', '+'], -(1 / 2))]

/-- Dictionary lookup in `NOTE_BASE_MIDI` (`_note_base_to_semitone`; a
missing key raises, modelled by `none`). -/
def lookupBase (s : List Char) : Option ℚ :=
  (NOTE_BASE_MIDI.find? (fun e => e.1 == s)).map (fun e => e.2)

/-- Whitespace, as stripped by Python's `str.strip()`. -/
def isWsp (c : Char) : Bool := c = ' ' ∨ c = '\t' ∨ c = '\n' ∨ c = '\r'

/-- Python's `str.strip()`: drop whitespace from both ends. -/
def pyStrip (s : List Char) : List Char :=
  ((s.dropWhile isWsp).reverse.dropWhile isWsp).reverse

/-- `note.replace(" ", "").strip()` (the NFKC normalization applied next in
the source is the identity on the note alphabet and is modelled as such). -/
def cleanNote (s : List Char) : List Char :=
  pyStrip (s.filter (fun c => ¬ c = ' '))

/-- The single-character replacements `♭→b`, `♯→#`, `↑→+`, `↓→-` of
`normalize_note_string`, fused into one character map (their domains and
images are disjoint, so the sequential `str.replace` calls commute with the
fusion). -/
def replUnicode (c : Char) : Char :=
  if c = '♭' then 'b'
  else if c = '♯' then '#'
  else if c = '↑' then '+'
  else if c = '↓' then '-'
  else c

/-- The flat → sharp table of `utils.notes.to_sharp`, in insertion order. -/
def flats : List (List Char × List Char) :=
  [(['C', 'b'], ['B']), (['D', 'b'], ['C', '#']), (['E', 'b'], ['D', '#']),
   (['F', 'b'], ['E']), (['G', 'b'], ['F', '#']), (['A', 'b'], ['G', '#']),
   (['B', 'b'], ['A', '#'])]

/-- The flat-rewriting loop of `to_sharp`: the first table entry that is a
prefix of the note is replaced (Python replaces the first occurrence, which
`startswith` places at position 0) and the loop breaks. -/
def flatRewrite (s : List Char) : List Char :=
  match flats.find? (fun fl => fl.1.isPrefixOf s) with
  | some fl => fl.2 ++ s.drop 2
  | none => s

/-- Embedding of `utils.notes.to_sharp`: rewrite an arrow note to `+`/`-`
form, otherwise rewrite a leading flat. -/
def to_sharp (note : List Char) : List Char :=
  match matchMarkedNote isArrowC isAccHB note with
  | some (name, ar, oct) => name ++ [if ar = '↑' then '+' else '-', oct]
  | none => flatRewrite note

/-- `note[0].upper() + note[1:]` when `len(note) >= 2`. -/
def capitalizeNote : List Char → List Char
  | [] => []
  | c :: t => if 1 ≤ t.length then c.toUpper :: t else c :: t

/-- Embedding of `utils.notes.normalize_note_string` (on a string input;
the `ValueError` for non-string inputs is outside the embedded domain). -/
def normalize_note_string (s : List Char) : List Char :=
  capitalizeNote (to_sharp ((cleanNote s).map replUnicode))

/-- Embedding of `utils.notes.extract_cents` (`_RE_CENTS` only). -/
def extract_cents (note : List Char) : List Char × ℤ :=
  match matchCentsPlain isAccHB note with
  | some bv => bv
  | none => (note, 0)

/-- Embedding of `utils.notes.note_to_midi`.  `none` models the
`ValueError` raised on an unrecognized format (directly, or through
`_note_base_to_semitone` on a base missing from `NOTE_BASE_MIDI`). -/
def note_to_midi (s : String) : Option ℚ :=
  let note := normalize_note_string s.data
  let bc := extract_cents note
  let note2 := to_sharp bc.1
  match matchPlainNote isAccHB note2 with
  | some (base, oct) =>
    (lookupBase base).map
      (fun v => v + ((digitVal oct : ℚ) + 1) * 12 + (bc.2 : ℚ) / 100)
  | none =>
    match matchMarkedNote isSignC isAccHB note2 with
    | some bmo =>
      (lookupBase (bmo.1 ++ [bmo.2.1])).map
        (fun v => v + ((digitVal bmo.2.2 : ℚ) + 1) * 12 + (bc.2 : ℚ) / 100)
    | none => none

/-- Embedding of `utils.notes.is_valid_note`: the four compiled patterns. -/
def is_valid_note (s : String) : Bool :=
  (matchPlainNote isAccHB s.data).isSome ||
  (matchMarkedNote isSignC isAccHB s.data).isSome ||
  (matchMarkedNote isArrowC isAccHB s.data).isSome ||
  (matchCentsPlain isAccHB s.data).isSome

end UtilsNotes

/-! ## Theorems: range of note_to_midi (C5) -/

/-- The digit value of any character is at most `9`. -/
theorem digitVal_le_nine (c : Char) : digitVal c ≤ 9 := by
  unfold digitVal
  repeat' split
  all_goals omega

/-- A digit character is distinct from any non-digit character. -/
theorem digit_ne_of_not_digit {d : Char} (hd : isDigitC d = true) (c : Char)
    (hc : isDigitC c = false) : d ≠ c := by
  intro h
  rw [h, hc] at hd
  cases hd

/-- A successful `matchMarkedNote` yields a digit octave character. -/
theorem matchMarkedNote_digit {mk acc : Char → Bool} {note b : List Char}
    {m d : Char} (h : matchMarkedNote mk acc note = some (b, m, d)) :
    isDigitC d = true := by
  rcases note with _ | ⟨c1, _ | ⟨c2, _ | ⟨c3, _ | ⟨c4, _ | ⟨c5, t⟩⟩⟩⟩⟩ <;>
    simp only [matchMarkedNote] at h
  · exact absurd h (by simp)
  · exact absurd h (by simp)
  · exact absurd h (by simp)
  · split at h
    · rename_i hc
      simp only [Option.some_inj, Prod.mk.injEq] at h
      obtain ⟨-, -, rfl⟩ := h
      simp only [Bool.and_eq_true] at hc
      exact hc.2
    · exact absurd h (by simp)
  · split at h
    · rename_i hc
      simp only [Option.some_inj, Prod.mk.injEq] at h
      obtain ⟨-, -, rfl⟩ := h
      simp only [Bool.and_eq_true] at hc
      exact hc.2
    · exact absurd h (by simp)
  · exact absurd h (by simp)

/-- A successful `matchPlainNote` yields a digit octave character. -/
theorem matchPlainNote_digit {acc : Char → Bool} {note b : List Char}
    {d : Char} (h : matchPlainNote acc note = some (b, d)) :
    isDigitC d = true := by
  rcases note with _ | ⟨c1, _ | ⟨c2, _ | ⟨c3, _ | ⟨c4, t⟩⟩⟩⟩ <;>
    simp only [matchPlainNote] at h
  · exact absurd h (by simp)
  · exact absurd h (by simp)
  · split at h
    · rename_i hc
      simp only [Option.some_inj, Prod.mk.injEq] at h
      obtain ⟨-, rfl⟩ := h
      simp only [Bool.and_eq_true] at hc
      exact hc.2
    · exact absurd h (by simp)
  · split at h
    · rename_i hc
      simp only [Option.some_inj, Prod.mk.injEq] at h
      obtain ⟨-, rfl⟩ := h
      simp only [Bool.and_eq_true] at hc
      exact hc.2
    · exact absurd h (by simp)
  · exact absurd h (by simp)

namespace Microtonal

/-- Every chromatic-scale value is between `0` and `11`. -/
theorem lookupEscala_bound {k : List Char} {v : ℚ}
    (h : lookupEscala k = some v) : 0 ≤ v ∧ v ≤ 11 := by
  unfold lookupEscala at h
  rcases hf : ESCALA_CROMATICA.find? (fun e => e.1 == k) with _ | e
  · rw [hf] at h
    exact absurd h (by simp)
  · rw [hf] at h
    simp only [Option.map_some', Option.some_inj] at h
    have hm : e ∈ ESCALA_CROMATICA := List.mem_of_find?_eq_some hf
    rw [← h]
    fin_cases hm <;> norm_num

/-- Range of a successful `arrowVal`: between `23/2` and `263/2`. -/
theorem arrowVal_bound {arrow : Char} {delta : ℚ} {note : List Char} {r : ℚ}
    (hδ₁ : -(1 / 2) ≤ delta) (hδ₂ : delta ≤ 1 / 2)
    (h : arrowVal arrow delta note = some r) : 23 / 2 ≤ r ∧ r ≤ 263 / 2 := by
  unfold arrowVal at h
  rcases hm : matchMarkedNote (fun c => c = arrow) isAccHB note with _ | ⟨b, m, d⟩
  · rw [hm] at h
    exact absurd h (by simp)
  · rw [hm] at h
    dsimp only at h
    rcases hl : lookupEscala (capBase b) with _ | v
    · rw [hl] at h
      exact absurd h (by simp)
    · rw [hl] at h
      simp only [Option.map_some', Option.some_inj] at h
      have h9 : (digitVal d : ℚ) ≤ 9 := by exact_mod_cast digitVal_le_nine d
      have h0 : (0 : ℚ) ≤ (digitVal d : ℚ) := by positivity
      have hv := lookupEscala_bound hl
      constructor <;> nlinarith [hv.1, hv.2]

/-- Range of a successful `quarterVal`. -/
theorem quarterVal_bound {note : List Char} {r : ℚ}
    (h : quarterVal note = some r) : 23 / 2 ≤ r ∧ r ≤ 263 / 2 := by
  unfold quarterVal at h
  rcases hm : matchMarkedNote isSignC isAccHB note with _ | ⟨b, m, d⟩
  · rw [hm] at h
    exact absurd h (by simp)
  · rw [hm] at h
    dsimp only at h
    rcases hl : lookupEscala (capBase b) with _ | v
    · rw [hl] at h
      exact absurd h (by simp)
    · rw [hl] at h
      simp only [Option.map_some', Option.some_inj] at h
      have h9 : (digitVal d : ℚ) ≤ 9 := by exact_mod_cast digitVal_le_nine d
      have h0 : (0 : ℚ) ≤ (digitVal d : ℚ) := by positivity
      have hv := lookupEscala_bound hl
      rcases h with rfl
      by_cases hplus : m = '+' <;>
        simp only [hplus, if_pos, if_neg, ite_true, ite_false] <;>
        constructor <;> nlinarith [hv.1, hv.2]

/-- Range of a successful `standardVal`. -/
theorem standardVal_bound {note : List Char} {r : ℚ}
    (h : standardVal note = some r) : 23 / 2 ≤ r ∧ r ≤ 263 / 2 := by
  unfold standardVal at h
  rcases hm : matchPlainNote isAccHB note with _ | ⟨b, d⟩
  · rw [hm] at h
    exact absurd h (by simp)
  · rw [hm] at h
    dsimp only at h
    rcases hl : lookupEscala (capBase b) with _ | v
    · rw [hl] at h
      exact absurd h (by simp)
    · rw [hl] at h
      simp only [Option.map_some', Option.some_inj] at h
      have h9 : (digitVal d : ℚ) ≤ 9 := by exact_mod_cast digitVal_le_nine d
      have h0 : (0 : ℚ) ≤ (digitVal d : ℚ) := by positivity
      have hv := lookupEscala_bound hl
      constructor <;> nlinarith [hv.1, hv.2]

/-- Range of the pattern dispatch `note_to_midi_core`. -/
theorem note_to_midi_core_bound {note : List Char} {r : ℚ}
    (h : note_to_midi_core note = some r) : 23 / 2 ≤ r ∧ r ≤ 263 / 2 := by
  unfold note_to_midi_core at h
  rcases h1 : arrowVal '↑' (-(1 / 2)) note with _ | v₁ <;> rw [h1] at h
  · rcases h2 : arrowVal '↓' (1 / 2) note with _ | v₂ <;> rw [h2] at h <;>
      simp only [Option.none_orElse', Option.some_orElse'] at h
    · rcases h3 : quarterVal note with _ | v₃ <;> rw [h3] at h <;>
        simp only [Option.none_orElse', Option.some_orElse'] at h
      · rcases h4 : standardVal note with _ | v₄ <;> rw [h4] at h
        · exact absurd h (by simp)
        · simp only [Option.some_inj] at h
          exact h ▸ standardVal_bound h4
      · simp only [Option.some_inj] at h
        exact h ▸ quarterVal_bound h3
    · simp only [Option.some_inj] at h
      exact h ▸ arrowVal_bound (by norm_num) (by norm_num) h2
  · simp only [Option.some_orElse', Option.some_inj] at h
    exact h ▸ arrowVal_bound (by norm_num) (by norm_num) h1

end Microtonal

/-- Signed cents from a one- or two-digit magnitude stay within `±99`. -/
theorem signedCents_bound {sg : Char} {v : ℕ} (hv : v ≤ 99) :
    -99 ≤ signedCents sg v ∧ signedCents sg v ≤ 99 := by
  unfold signedCents
  split <;> omega

/-- Inversion for `matchCentsPlain`: the string ends in `c`, the cents are
within `±99`, and the returned base ends with a digit. -/
theorem matchCentsPlain_spec {acc : Char → Bool} {s b : List Char} {v : ℤ}
    (h : matchCentsPlain acc s = some (b, v)) :
    s.getLast? = some 'c' ∧ (-99 ≤ v ∧ v ≤ 99) ∧
    ∃ d, isDigitC d = true ∧ b.getLast? = some d := by
  unfold matchCentsPlain at h
  split at h
  · rename_i l d sg e1
    split at h
    · rename_i hc
      simp only [Option.some_inj, Prod.mk.injEq] at h
      obtain ⟨rfl, rfl⟩ := h
      simp only [Bool.and_eq_true] at hc
      refine ⟨by simp, signedCents_bound (le_trans (digitVal_le_nine e1) (by norm_num)),
        d, hc.1.1.2, by simp⟩
    · exact absurd h (by simp)
  · rename_i l x2 x3 x4 x5
    split at h
    · rename_i hc
      simp only [Option.some_inj, Prod.mk.injEq] at h
      obtain ⟨rfl, rfl⟩ := h
      simp only [Bool.and_eq_true] at hc
      refine ⟨by simp, signedCents_bound (le_trans (digitVal_le_nine x5) (by norm_num)),
        x3, hc.1.1.2, by simp⟩
    · split at h
      · rename_i hc
        simp only [Option.some_inj, Prod.mk.injEq] at h
        obtain ⟨rfl, rfl⟩ := h
        simp only [Bool.and_eq_true] at hc
        refine ⟨by simp, signedCents_bound ?_, x2, hc.1.1.1.2, by simp⟩
        have := digitVal_le_nine x4
        have := digitVal_le_nine x5
        omega
      · exact absurd h (by simp)
  · rename_i l a d sg e1 e2
    split at h
    · rename_i hc
      simp only [Option.some_inj, Prod.mk.injEq] at h
      obtain ⟨rfl, rfl⟩ := h
      simp only [Bool.and_eq_true] at hc
      refine ⟨by simp, signedCents_bound ?_, d, hc.1.1.1.2, by simp⟩
      have := digitVal_le_nine e1
      have := digitVal_le_nine e2
      omega
    · exact absurd h (by simp)
  · exact absurd h (by simp)

/-- Inversion for `matchCentsMarked`: the string ends in `c`, the cents are
within `±99`, and the returned base ends with a digit. -/
theorem matchCentsMarked_spec {mk acc : Char → Bool} {s b : List Char} {v : ℤ}
    (h : matchCentsMarked mk acc s = some (b, v)) :
    s.getLast? = some 'c' ∧ (-99 ≤ v ∧ v ≤ 99) ∧
    ∃ d, isDigitC d = true ∧ b.getLast? = some d := by
  unfold matchCentsMarked at h
  split at h
  · rename_i l m d sg e1
    split at h
    · rename_i hc
      simp only [Option.some_inj, Prod.mk.injEq] at h
      obtain ⟨rfl, rfl⟩ := h
      simp only [Bool.and_eq_true] at hc
      refine ⟨by simp, signedCents_bound (le_trans (digitVal_le_nine e1) (by norm_num)),
        d, hc.1.1.2, by simp⟩
    · exact absurd h (by simp)
  · rename_i l x2 x3 x4 x5 x6
    split at h
    · rename_i hc
      simp only [Option.some_inj, Prod.mk.injEq] at h
      obtain ⟨rfl, rfl⟩ := h
      simp only [Bool.and_eq_true] at hc
      refine ⟨by simp, signedCents_bound (le_trans (digitVal_le_nine x6) (by norm_num)),
        x4, hc.1.1.2, by simp⟩
    · split at h
      · rename_i hc
        simp only [Option.some_inj, Prod.mk.injEq] at h
        obtain ⟨rfl, rfl⟩ := h
        simp only [Bool.and_eq_true] at hc
        refine ⟨by simp, signedCents_bound ?_, x3, hc.1.1.1.2, by simp⟩
        have := digitVal_le_nine x5
        have := digitVal_le_nine x6
        omega
      · exact absurd h (by simp)
  · rename_i l a m d sg e1 e2
    split at h
    · rename_i hc
      simp only [Option.some_inj, Prod.mk.injEq] at h
      obtain ⟨rfl, rfl⟩ := h
      simp only [Bool.and_eq_true] at hc
      refine ⟨by simp, signedCents_bound ?_, d, hc.1.1.1.2, by simp⟩
      have := digitVal_le_nine e1
      have := digitVal_le_nine e2
      omega
    · exact absurd h (by simp)
  · exact absurd h (by simp)

namespace Microtonal

/-- `restoreSharp` does not change a trailing non-`#` character. -/
theorem restoreSharp_getLast {orig base : List Char} {d : Char}
    (hd : base.getLast? = some d) (hne : d ≠ '#') :
    (restoreSharp orig base).getLast? = some d := by
  unfold restoreSharp
  split
  · rw [List.getLast?_map, hd]
    simp [hne]
  · exact hd

/-- Inversion for `microtonal.extract_cents`: either no cents, or cents
within `±99` and a base ending with a digit. -/
theorem extract_cents_spec (s : List Char) :
    (extract_cents s).2 = 0 ∨
    ((-99 ≤ (extract_cents s).2 ∧ (extract_cents s).2 ≤ 99) ∧
     ∃ d, isDigitC d = true ∧ (extract_cents s).1.getLast? = some d) := by
  unfold extract_cents
  split
  · left; rfl
  · rcases h1 : matchCentsPlain isAccHSB s with _ | ⟨b, v⟩
    · rcases h2 : matchCentsPlain isAccHB (s.map replSharpChar) with _ | ⟨b, v⟩
      · rcases h3 : matchCentsMarked isArrowC isAccHB (s.map replSharpChar) with _ | ⟨b, v⟩
        · rcases h4 : matchCentsMarked isSignC isAccHB (s.map replSharpChar) with _ | ⟨b, v⟩
          · simp [h1, h2, h3, h4]
          · obtain ⟨-, hv, d, hd, hlast⟩ := matchCentsMarked_spec h4
            right
            simp only [h1, h2, h3, h4]
            exact ⟨hv, d, hd,
              restoreSharp_getLast hlast (digit_ne_of_not_digit hd '#' rfl)⟩
        · obtain ⟨-, hv, d, hd, hlast⟩ := matchCentsMarked_spec h3
          right
          simp only [h1, h2, h3]
          exact ⟨hv, d, hd,
            restoreSharp_getLast hlast (digit_ne_of_not_digit hd '#' rfl)⟩
      · obtain ⟨-, hv, d, hd, hlast⟩ := matchCentsPlain_spec h2
        right
        simp only [h1, h2]
        exact ⟨hv, d, hd,
          restoreSharp_getLast hlast (digit_ne_of_not_digit hd '#' rfl)⟩
    · obtain ⟨-, hv, d, hd, hlast⟩ := matchCentsPlain_spec h1
      right
      simp only [h1]
      exact ⟨hv, d, hd, hlast⟩

/-- On a string ending with a digit, `extract_cents` finds no cents. -/
theorem extract_cents_of_getLast_digit {s : List Char} {d : Char}
    (hd : isDigitC d = true) (h : s.getLast? = some d) :
    extract_cents s = (s, 0) := by
  have hdc : d ≠ 'c' := digit_ne_of_not_digit hd 'c' rfl
  have hmap : (s.map replSharpChar).getLast? = some d := by
    rw [List.getLast?_map, h]
    simp [show replSharpChar d = d from by
      unfold replSharpChar
      simp [digit_ne_of_not_digit hd '♯' rfl]]
  unfold extract_cents
  split
  · rfl
  · rcases h1 : matchCentsPlain isAccHSB s with _ | ⟨b, v⟩
    · rcases h2 : matchCentsPlain isAccHB (s.map replSharpChar) with _ | ⟨b, v⟩
      · rcases h3 : matchCentsMarked isArrowC isAccHB (s.map replSharpChar) with _ | ⟨b, v⟩
        · rcases h4 : matchCentsMarked isSignC isAccHB (s.map replSharpChar) with _ | ⟨b, v⟩
          · simp [h1, h2, h3, h4]
          · obtain ⟨hc, -, -⟩ := matchCentsMarked_spec h4
            rw [hmap] at hc
            exact absurd (Option.some_inj.mp hc) hdc
        · obtain ⟨hc, -, -⟩ := matchCentsMarked_spec h3
          rw [hmap] at hc
          exact absurd (Option.some_inj.mp hc) hdc
      · obtain ⟨hc, -, -⟩ := matchCentsPlain_spec h2
        rw [hmap] at hc
        exact absurd (Option.some_inj.mp hc) hdc
    · obtain ⟨hc, -, -⟩ := matchCentsPlain_spec h1
      rw [h] at hc
      exact absurd (Option.some_inj.mp hc) hdc

end Microtonal

namespace Microtonal

/-- One step of `note_to_midi_aux` on a cents-free input stays within
`[23/2, 263/2]` (pattern values, or the fallback `60`). -/
theorem note_to_midi_aux_one_bound (fuel : ℕ) (note : List Char)
    (h : (extract_cents (note.map replSharpChar)).2 = 0) :
    23 / 2 ≤ note_to_midi_aux (fuel + 1) note ∧
      note_to_midi_aux (fuel + 1) note ≤ 263 / 2 := by
  unfold note_to_midi_aux
  by_cases hn : note = []
  · rw [if_pos hn]
    norm_num
  · rw [if_neg hn]
    rw [if_neg (not_not_intro h)]
    rcases hc : note_to_midi_core (note.map replSharpChar) with _ | r
    · simp only [hc, Option.getD_none]
      norm_num
    · simp only [hc, Option.getD_some]
      exact note_to_midi_core_bound hc

/-- `note_to_midi_aux 2` (the exported conversion) lies within
`[0, 132.49]` on every input string. -/
theorem note_to_midi_aux_bound (note : List Char) :
    0 ≤ note_to_midi_aux 2 note ∧ note_to_midi_aux 2 note ≤ 13249 / 100 := by
  have heq : note_to_midi_aux 2 note =
      (if note = [] then 60
       else
        if (extract_cents (note.map replSharpChar)).2 ≠ 0 then
          note_to_midi_aux 1 (extract_cents (note.map replSharpChar)).1 +
            ((extract_cents (note.map replSharpChar)).2 : ℚ) / 100
        else (note_to_midi_core (note.map replSharpChar)).getD 60) := rfl
  rw [heq]
  by_cases hn : note = []
  · rw [if_pos hn]
    norm_num
  · rw [if_neg hn]
    by_cases hz : (extract_cents (note.map replSharpChar)).2 = 0
    · rw [if_neg (not_not_intro hz)]
      have hb := note_to_midi_aux_one_bound 1 note hz
      rw [show note_to_midi_aux (1 + 1) note =
        (if note = [] then 60
         else
          if (extract_cents (note.map replSharpChar)).2 ≠ 0 then
            note_to_midi_aux 1 (extract_cents (note.map replSharpChar)).1 +
              ((extract_cents (note.map replSharpChar)).2 : ℚ) / 100
          else (note_to_midi_core (note.map replSharpChar)).getD 60) from rfl,
        if_neg hn, if_neg (not_not_intro hz)] at hb
      exact ⟨by linarith [hb.1], by linarith [hb.2]⟩
    · rw [if_pos hz]
      rcases extract_cents_spec (note.map replSharpChar) with h0 | ⟨⟨hl, hu⟩, d, hd, hlast⟩
      · exact absurd h0 hz
      · have hz0 : (extract_cents ((extract_cents (note.map replSharpChar)).1.map
            replSharpChar)).2 = 0 := by
          have hmap : ((extract_cents (note.map replSharpChar)).1.map
              replSharpChar).getLast? = some d := by
            rw [List.getLast?_map, hlast]
            simp [show replSharpChar d = d from by
              unfold replSharpChar
              simp [digit_ne_of_not_digit hd '♯' rfl]]
          rw [extract_cents_of_getLast_digit hd hmap]
        have hb := note_to_midi_aux_one_bound 0 _ hz0
        have hcast₁ : (-99 : ℚ) ≤ ((extract_cents (note.map replSharpChar)).2 : ℚ) := by
          exact_mod_cast hl
        have hcast₂ : ((extract_cents (note.map replSharpChar)).2 : ℚ) ≤ 99 := by
          exact_mod_cast hu
        constructor <;> [linarith [hb.1]; linarith [hb.2]]

end Microtonal

/-! ## C5: range of note_to_midi on validator-accepted strings -/

/-- C5 (amended): for every string accepted by the validator
`microtonal.is_valid_note`, `microtonal.note_to_midi` lies within
`[0, 132.49]` — indeed this holds for every input string; the original
claim's interval `[0, 127]` is too small (see the counterexample `B9`,
whose value is `131`). -/
theorem note_to_midi_valid_in_range (s : String)
    (hv : Microtonal.is_valid_note s = true) :
    0 ≤ Microtonal.note_to_midi s ∧ Microtonal.note_to_midi s ≤ 13249 / 100 := by
  clear hv
  exact Microtonal.note_to_midi_aux_bound s.data

/-- Witness for C5 (amended) at the valid note `C4`. -/
theorem note_to_midi_valid_in_range_witness :
    Microtonal.is_valid_note ("C4") = true ∧
    (0 ≤ Microtonal.note_to_midi ("C4") ∧
     Microtonal.note_to_midi ("C4") ≤ 13249 / 100) :=
  ⟨rfl, note_to_midi_valid_in_range ("C4") rfl⟩

/-- C5 (counterexample): `B9` is accepted by the validator, yet its MIDI
value is `131 > 127`, so valid notes do not all map into `[0, 127]`. -/
theorem note_to_midi_range_counterexample :
    Microtonal.is_valid_note ("B9") = true ∧
    Microtonal.note_to_midi ("B9") = 131 ∧
    ¬(Microtonal.note_to_midi ("B9") ≤ 127) := by
  have h : Microtonal.note_to_midi ("B9") = (((9 : ℕ) : ℚ) + 1) * 12 + 11 := rfl
  refine ⟨rfl, ?_, ?_⟩ <;> rw [h] <;> norm_num

namespace Microtonal

/-- Decidable "recognized" predicate for `microtonal.note_to_midi`: after
`♯→#` normalization and cents extraction, one of the four note patterns
matches with a base present in the chromatic scale.  When this is false the
conversion reaches its documented warn-and-fallback path. -/
def reconhecida (s : String) : Bool :=
  let note' := s.data.map replSharpChar
  let bc := extract_cents note'
  if bc.2 ≠ 0 then (note_to_midi_core (bc.1.map replSharpChar)).isSome
  else (note_to_midi_core note').isSome

end Microtonal

/-! ## C2: the fallback of note_to_midi -/

/-- C2 (amended): `microtonal.note_to_midi` is total; on an unrecognized
input it returns the fallback `60.0` plus any cents suffix that was parsed
off (`60.0` exactly when no cents were extracted).  The utils path is NOT
total — see the counterexample. -/
theorem note_to_midi_unrecognized_fallback (s : String)
    (h : Microtonal.reconhecida s = false) :
    Microtonal.note_to_midi s =
      60 + ((Microtonal.extract_cents (s.data.map replSharpChar)).2 : ℚ) / 100 := by
  unfold Microtonal.note_to_midi
  have heq : Microtonal.note_to_midi_aux 2 s.data =
      (if s.data = [] then 60
       else
        if (Microtonal.extract_cents (s.data.map replSharpChar)).2 ≠ 0 then
          Microtonal.note_to_midi_aux 1
              (Microtonal.extract_cents (s.data.map replSharpChar)).1 +
            ((Microtonal.extract_cents (s.data.map replSharpChar)).2 : ℚ) / 100
        else (Microtonal.note_to_midi_core (s.data.map replSharpChar)).getD 60) := rfl
  rw [heq]
  unfold Microtonal.reconhecida at h
  by_cases hn : s.data = []
  · rw [if_pos hn, hn]
    norm_num [Microtonal.extract_cents]
  · rw [if_neg hn]
    by_cases hz : (Microtonal.extract_cents (s.data.map replSharpChar)).2 = 0
    · rw [if_neg (not_not_intro hz)]
      rw [if_neg (not_not_intro hz)] at h
      rcases hc : Microtonal.note_to_midi_core (s.data.map replSharpChar) with _ | r
      · rw [hz]
        norm_num
      · rw [hc] at h
        simp at h
    · rw [if_pos hz]
      rw [if_pos hz] at h
      rcases Microtonal.extract_cents_spec (s.data.map replSharpChar)
        with h0 | ⟨-, d, hd, hlast⟩
      · exact absurd h0 hz
      · have haux : Microtonal.note_to_midi_aux 1
            (Microtonal.extract_cents (s.data.map replSharpChar)).1 = 60 := by
          have heq1 : Microtonal.note_to_midi_aux 1
              (Microtonal.extract_cents (s.data.map replSharpChar)).1 =
              (if (Microtonal.extract_cents (s.data.map replSharpChar)).1 = [] then (60 : ℚ)
               else
                if (Microtonal.extract_cents
                    ((Microtonal.extract_cents (s.data.map replSharpChar)).1.map
                      replSharpChar)).2 ≠ 0 then
                  Microtonal.note_to_midi_aux 0
                      (Microtonal.extract_cents
                        ((Microtonal.extract_cents (s.data.map replSharpChar)).1.map
                          replSharpChar)).1 +
                    ((Microtonal.extract_cents
                        ((Microtonal.extract_cents (s.data.map replSharpChar)).1.map
                          replSharpChar)).2 : ℚ) / 100
                else
                  (Microtonal.note_to_midi_core
                      ((Microtonal.extract_cents (s.data.map replSharpChar)).1.map
                        replSharpChar)).getD 60) := rfl
          rw [heq1]
          by_cases hb : (Microtonal.extract_cents (s.data.map replSharpChar)).1 = []
          · rw [if_pos hb]
          · rw [if_neg hb]
            have hmap : ((Microtonal.extract_cents (s.data.map replSharpChar)).1.map
                replSharpChar).getLast? = some d := by
              rw [List.getLast?_map, hlast]
              simp [show replSharpChar d = d from by
                unfold replSharpChar
                simp [digit_ne_of_not_digit hd '♯' rfl]]
            have hz0 := Microtonal.extract_cents_of_getLast_digit hd hmap
            simp only [hz0]
            norm_num
            rcases hc : Microtonal.note_to_midi_core
                ((Microtonal.extract_cents (s.data.map replSharpChar)).1.map
                  replSharpChar) with _ | r
            · simp
            · rw [hc] at h
              simp at h
        rw [haux]

/-- Witness for C2 (amended) at the unrecognized input `H4`. -/
theorem note_to_midi_unrecognized_fallback_witness :
    Microtonal.reconhecida ("H4") = false ∧
    Microtonal.note_to_midi ("H4") =
      60 + ((Microtonal.extract_cents (("H4").data.map replSharpChar)).2 : ℚ) / 100 :=
  ⟨rfl, note_to_midi_unrecognized_fallback ("H4") rfl⟩

/-- C2 (counterexample): the conversion path
`utils.notes.note_to_midi` RAISES (`none`) on the unrecognized input `H4`
instead of returning the 60.0 fallback, while the microtonal path returns
`60.0`; "never raises" does not hold for every note-to-MIDI path. -/
theorem note_to_midi_raises_counterexample :
    UtilsNotes.note_to_midi ("H4") = none ∧
    Microtonal.note_to_midi ("H4") = 60 :=
  ⟨rfl, rfl⟩

/-! ## C1: the quarter-tone arrow convention -/

/-- C1 (counterexample): on the arrow note `E#↑4` (accepted by both
validators) the claimed convention fails: `microtonal.note_to_midi` hits its
fallback and returns `60.0` — not `note_to_midi("E#4") - 0.5` — while the
utils path returns `64.5`, so the two conversion paths disagree. -/
theorem arrow_convention_counterexample :
    Microtonal.note_to_midi ("E#↑4") = 60 ∧
    Microtonal.note_to_midi ("E#4") = 60 ∧
    UtilsNotes.note_to_midi ("E#↑4") = some (129 / 2) ∧
    Microtonal.note_to_midi ("E#↑4") ≠ Microtonal.note_to_midi ("E#4") - 1 / 2 ∧
    UtilsNotes.note_to_midi ("E#↑4") ≠ some (Microtonal.note_to_midi ("E#↑4")) := by
  have hm1 : Microtonal.note_to_midi ("E#↑4") = 60 := rfl
  have hm2 : Microtonal.note_to_midi ("E#4") = 60 := rfl
  have hu : UtilsNotes.note_to_midi ("E#↑4") =
      some ((9 / 2 : ℚ) + (((4 : ℕ) : ℚ) + 1) * 12 + ((0 : ℤ) : ℚ) / 100) := rfl
  have hu' : UtilsNotes.note_to_midi ("E#↑4") = some (129 / 2) := by
    rw [hu]
    norm_num
  refine ⟨hm1, hm2, hu', ?_, ?_⟩
  · rw [hm1, hm2]
    norm_num
  · rw [hm1, hu']
    simp only [ne_eq, Option.some_inj]
    norm_num

set_option maxHeartbeats 40000000 in
/-- C1 (amended): for every note base in the chromatic table
`ESCALA_CROMATICA` (the bases shared by both conversion paths) and every
octave digit, the two note-to-MIDI paths agree and apply one convention:
`↑` lowers the pitch by `0.5` semitone and `↓` raises it by `0.5`, relative
to the unmarked note.  (For bases outside the table — `E#`, `B#`, `Cb`,
`Fb` — the microtonal path instead falls back to `60.0` and the paths
disagree; see the counterexample.) -/
theorem arrow_convention_amended (b : List Char) (d : Char)
    (hb : b ∈ Microtonal.ESCALA_CROMATICA.map Prod.fst)
    (hd : isDigitC d = true) :
    Microtonal.note_to_midi ⟨b ++ ['↑', d]⟩ =
      Microtonal.note_to_midi ⟨b ++ [d]⟩ - 1 / 2 ∧
    Microtonal.note_to_midi ⟨b ++ ['↓', d]⟩ =
      Microtonal.note_to_midi ⟨b ++ [d]⟩ + 1 / 2 ∧
    UtilsNotes.note_to_midi ⟨b ++ ['↑', d]⟩ =
      some (Microtonal.note_to_midi ⟨b ++ ['↑', d]⟩) ∧
    UtilsNotes.note_to_midi ⟨b ++ ['↓', d]⟩ =
      some (Microtonal.note_to_midi ⟨b ++ ['↓', d]⟩) := by
  have hdc : d ≠ 'c' := digit_ne_of_not_digit hd 'c' rfl
  have hsharp : d ≠ '♯' := digit_ne_of_not_digit hd '♯' rfl
  have hflat : d ≠ '♭' := digit_ne_of_not_digit hd '♭' rfl
  have hup : d ≠ '↑' := digit_ne_of_not_digit hd '↑' rfl
  have hdn : d ≠ '↓' := digit_ne_of_not_digit hd '↓' rfl
  have hsp : d ≠ ' ' := digit_ne_of_not_digit hd ' ' rfl
  have htab : d ≠ '\t' := digit_ne_of_not_digit hd '\t' rfl
  have hnl : d ≠ '\n' := digit_ne_of_not_digit hd '\n' rfl
  have hcr : d ≠ '\r' := digit_ne_of_not_digit hd '\r' rfl
  simp only [Microtonal.ESCALA_CROMATICA, List.map_cons, List.map_nil,
    List.mem_cons, List.not_mem_nil, or_false] at hb
  rcases hb with rfl | rfl | rfl | rfl | rfl | rfl | rfl | rfl | rfl | rfl |
    rfl | rfl | rfl | rfl | rfl | rfl | rfl <;>
  · refine ⟨?_, ?_, ?_, ?_⟩ <;>
    · simp [UtilsNotes.note_to_midi, UtilsNotes.normalize_note_string,
        UtilsNotes.cleanNote, UtilsNotes.pyStrip, UtilsNotes.isWsp,
        UtilsNotes.replUnicode, UtilsNotes.to_sharp, UtilsNotes.flatRewrite,
        UtilsNotes.flats, UtilsNotes.capitalizeNote, UtilsNotes.extract_cents,
        UtilsNotes.lookupBase, UtilsNotes.NOTE_BASE_MIDI,
        Microtonal.note_to_midi, Microtonal.note_to_midi_aux,
        Microtonal.extract_cents, Microtonal.note_to_midi_core,
        Microtonal.arrowVal, Microtonal.quarterVal, Microtonal.standardVal,
        matchMarkedNote, matchPlainNote, matchCentsPlain, matchCentsMarked,
        Microtonal.restoreSharp, signedCents, Microtonal.lookupEscala,
        Microtonal.ESCALA_CROMATICA, capBase, replSharpChar,
        isLetterAG, lettersAG, isAccHB, isSignC, isArrowC,
        List.find?, List.isPrefixOf, hd, hdc, hdc.symm, hsharp, hsharp.symm,
        hflat, hflat.symm, hup, hup.symm, hdn, hdn.symm, hsp, hsp.symm,
        htab, htab.symm, hnl, hnl.symm, hcr, hcr.symm]
      try ring
      try norm_num

/-- Witness for C1 (amended) at the base `C` with octave digit `4`
(the notes `C↑4`, `C↓4`, `C4`). -/
theorem arrow_convention_amended_witness :
    ['C'] ∈ Microtonal.ESCALA_CROMATICA.map Prod.fst ∧
    isDigitC '4' = true ∧
    (Microtonal.note_to_midi ⟨['C'] ++ ['↑', '4']⟩ =
       Microtonal.note_to_midi ⟨['C'] ++ ['4']⟩ - 1 / 2 ∧
     Microtonal.note_to_midi ⟨['C'] ++ ['↓', '4']⟩ =
       Microtonal.note_to_midi ⟨['C'] ++ ['4']⟩ + 1 / 2 ∧
     UtilsNotes.note_to_midi ⟨['C'] ++ ['↑', '4']⟩ =
       some (Microtonal.note_to_midi ⟨['C'] ++ ['↑', '4']⟩) ∧
     UtilsNotes.note_to_midi ⟨['C'] ++ ['↓', '4']⟩ =
       some (Microtonal.note_to_midi ⟨['C'] ++ ['↓', '4']⟩)) :=
  ⟨by simp [Microtonal.ESCALA_CROMATICA], rfl,
    arrow_convention_amended ['C'] '4' (by simp [Microtonal.ESCALA_CROMATICA]) rfl⟩

namespace Densidade

/-- Embedding of `densidade_intervalar.calcular_densidade_intervalar` (the
pair-by-pair summation of the decay function, with the minimum-delta rule
and optional perceptual weighting).  As in the source, `pitches` is built
from the non-empty notes while the minimum-delta comparison reads
`notas[i]`/`notas[j]` from the original list. -/
noncomputable def calcular_densidade_intervalar (notas : List String) (lamb : ℝ)
    (usar_ponderacao_perceptual : Bool) : ℝ :=
  let pitches : List ℝ :=
    (notas.filter (fun n => n ≠ "")).map
      (fun n => ((Microtonal.note_to_midi n : ℚ) : ℝ))
  ∑ i in Finset.range pitches.length, ∑ j in Finset.Ico (i + 1) pitches.length,
    (let delta0 := |pitches.getD i 0 - pitches.getD j 0|
     let delta_semitons :=
       if delta0 < 1 / 100 ∧ notas.getD i "" ≠ notas.getD j "" then
         max delta0 (1 / 4)
       else delta0
     let densidade_base := decaimento_exponencial_modificado (delta_semitons * 2) lamb
     if usar_ponderacao_perceptual then
       densidade_base *
         calcular_peso_perceptual_microtonal (pitches.getD i 0) (pitches.getD j 0)
           delta_semitons
     else densidade_base)

end Densidade

namespace DataProcessor

/-- Filtering step of `data_processor.calcular_densidade_intervalar_com_cents`:
a note is kept (with its MIDI value) when it is non-empty and its MIDI value
is not the fallback `60.0`, or when its upper-cased text starts with `C4`. -/
def keep_nota (nota : String) : Option (ℚ × String) :=
  if nota = "" then none
  else
    let m := Microtonal.note_to_midi nota
    if m ≠ 60 then some (m, nota)
    else if (nota.data.map Char.toUpper).take 2 = ['C', '4'] then some (m, nota)
    else none

/-- The `valid_pitches`/`valid_notas` lists of
`calcular_densidade_intervalar_com_cents`, paired. -/
def valid_pairs (notas : List String) : List (ℚ × String) :=
  notas.filterMap keep_nota

/-- Embedding of `data_processor.calcular_densidade_intervalar_com_cents`.
Here the minimum-delta rule assigns exactly `0.25` (the source sets
`delta_semitons = 0.25`, not a `max`). -/
noncomputable def calcular_densidade_intervalar_com_cents (notas : List String)
    (lamb : ℝ) : ℝ :=
  if notas = [] ∨ notas.length < 2 then 0
  else
    let vp := valid_pairs notas
    if vp.length < 2 then 0
    else
      ∑ i in Finset.range vp.length, ∑ j in Finset.Ico (i + 1) vp.length,
        (let delta0 := |((vp.getD i (0, "")).1 : ℝ) - ((vp.getD j (0, "")).1 : ℝ)|
         let delta_semitons :=
           if delta0 < 1 / 100 ∧ (vp.getD i (0, "")).2 ≠ (vp.getD j (0, "")).2 then
             (1 / 4 : ℝ)
           else delta0
         decaimento_exponencial_modificado (delta_semitons * 2) lamb)

/-- Embedding of `data_processor.calcular_densidade_intervalar_psicoaustica`.
Its pairwise loop uses the raw `|ΔMIDI|` — it has NO minimum-delta rule,
unlike the other two summation paths. -/
noncomputable def calcular_densidade_intervalar_psicoaustica (notas : List String)
    (lamb : ℝ) (use_psychoacoustic use_perceptual_weighting : Bool) : ℝ :=
  if notas = [] ∨ notas.length < 2 then 0
  else
    let valid_notas := notas.filter (fun n => n ≠ "")
    let valid_pitches : List ℝ :=
      valid_notas.map (fun n => ((Microtonal.note_to_midi n : ℚ) : ℝ))
    if valid_pitches.length < 2 then 0
    else
      let base_amplitudes : List ℝ := List.replicate valid_pitches.length 1
      let corrected_amplitudes :=
        if use_psychoacoustic then
          apply_loudness_correction valid_pitches
            (critical_band_masking (fun p => frequency_to_bark (midi_to_hz p))
              valid_pitches base_amplitudes (1 / 4))
        else base_amplitudes
      let roughness :=
        if use_psychoacoustic then
          calculate_roughness valid_pitches corrected_amplitudes
        else 0
      let densidade_total :=
        ∑ i in Finset.range valid_pitches.length,
          ∑ j in Finset.Ico (i + 1) valid_pitches.length,
          (let delta_semitons := |valid_pitches.getD i 0 - valid_pitches.getD j 0|
           let p0 := decaimento_exponencial_modificado (delta_semitons * 2) lamb
           let p1 :=
             if use_perceptual_weighting then
               p0 * calcular_peso_perceptual_microtonal (valid_pitches.getD i 0)
                 (valid_pitches.getD j 0) delta_semitons
             else p0
           if use_psychoacoustic then
             p1 * ((corrected_amplitudes.getD i 0 + corrected_amplitudes.getD j 0) / 2)
           else p1)
      if use_psychoacoustic ∧ 0 < roughness then
        densidade_total + roughness * (4 / 5)
      else densidade_total

/-- The input-validation error of `calcular_metricas` (class `InputError`
from `error_handler.py`; the `@handle_exceptions(rethrow=True)` decorator
logs such errors and re-raises them to the caller). -/
inductive MetricsError : Type
  | inputError (msg : String)

/-- Embedding of the validation prefix (step 1) of
`data_processor.calcular_metricas`.  The downstream pipeline (steps 2–12:
note conversion, densities, spectral metrics, aggregation) is abstracted as
`rest`, a function of the validated inputs; the theorem below shows that on
invalid input the error is raised with `rest` never contributing. -/
def calcular_metricas {R : Type}
    (rest : List String → List String → List String → List ℕ → R)
    (notes dynamics instruments : List String) (num_instruments : List ℕ) :
    Except MetricsError R :=
  if notes = [] ∨ dynamics = [] ∨ instruments = [] ∨ num_instruments = [] then
    Except.error (MetricsError.inputError
      "Notas, dinâmicas, instrumentos e quantidades são obrigatórios.")
  else if ¬(notes.length = dynamics.length ∧
      dynamics.length = instruments.length ∧
      instruments.length = num_instruments.length) then
    Except.error (MetricsError.inputError
      "Listas de entrada devem ter o mesmo comprimento.")
  else Except.ok (rest notes dynamics instruments num_instruments)

end DataProcessor

/-! ## C3: input validation of calcular_metricas -/

/-- C3: `calcular_metricas` raises `InputError` when a required input list
(notes, dynamics, instruments, counts) is empty or missing (a missing key
yields `[]` via `input_data.get(..., [])`), and when the four lists do not
all have the same length; the error is raised by the validation prefix, so
the result is an `inputError` independent of the downstream pipeline
`rest` — no density computation runs. -/
theorem calcular_metricas_validates_before_compute {R : Type}
    (rest rest' : List String → List String → List String → List ℕ → R)
    (notes dynamics instruments : List String) (num_instruments : List ℕ)
    (h : notes = [] ∨ dynamics = [] ∨ instruments = [] ∨ num_instruments = [] ∨
      ¬(notes.length = dynamics.length ∧ dynamics.length = instruments.length ∧
        instruments.length = num_instruments.length)) :
    (∃ msg, DataProcessor.calcular_metricas rest notes dynamics instruments
        num_instruments = Except.error (DataProcessor.MetricsError.inputError msg)) ∧
    DataProcessor.calcular_metricas rest notes dynamics instruments num_instruments =
      DataProcessor.calcular_metricas rest' notes dynamics instruments
        num_instruments := by
  unfold DataProcessor.calcular_metricas
  by_cases h0 : notes = [] ∨ dynamics = [] ∨ instruments = [] ∨ num_instruments = []
  · rw [if_pos h0, if_pos h0]
    exact ⟨⟨_, rfl⟩, rfl⟩
  · have hm : ¬(notes.length = dynamics.length ∧
        dynamics.length = instruments.length ∧
        instruments.length = num_instruments.length) := by
      rcases h with h | h | h | h | h
      · exact absurd (Or.inl h) h0
      · exact absurd (Or.inr (Or.inl h)) h0
      · exact absurd (Or.inr (Or.inr (Or.inl h))) h0
      · exact absurd (Or.inr (Or.inr (Or.inr h))) h0
      · exact h
    rw [if_neg h0, if_neg h0, if_pos hm, if_pos hm]
    exact ⟨⟨_, rfl⟩, rfl⟩

/-- Witness for C3: an empty notes list with two distinct downstream
pipelines. -/
theorem calcular_metricas_validates_before_compute_witness :
    (([] : List String) = [] ∨ (["mf"] : List String) = [] ∨
      (["Flauta"] : List String) = [] ∨ ([1] : List ℕ) = [] ∨
      ¬(([] : List String).length = (["mf"] : List String).length ∧
        (["mf"] : List String).length = (["Flauta"] : List String).length ∧
        (["Flauta"] : List String).length = ([1] : List ℕ).length)) ∧
    ((∃ msg, DataProcessor.calcular_metricas (fun _ _ _ _ => (0 : ℕ)) [] ["mf"]
        ["Flauta"] [1] = Except.error (DataProcessor.MetricsError.inputError msg)) ∧
     DataProcessor.calcular_metricas (fun _ _ _ _ => (0 : ℕ)) [] ["mf"]
        ["Flauta"] [1] =
       DataProcessor.calcular_metricas (fun _ _ _ _ => (1 : ℕ)) [] ["mf"]
        ["Flauta"] [1]) :=
  ⟨Or.inl rfl,
    calcular_metricas_validates_before_compute (fun _ _ _ _ => (0 : ℕ))
      (fun _ _ _ _ => (1 : ℕ)) [] ["mf"] ["Flauta"] [1] (Or.inl rfl)⟩

/-! ## C6: the minimum-delta (anti-unison) rule -/

/-- C6 (counterexample): `C#4` and `Db4` are distinct spellings of the same
pitch (MIDI 61, delta 0 < 0.01), yet
`data_processor.calcular_densidade_intervalar_psicoaustica` treats them as
an exact unison: its pair contributes `decay(0) = 1`, not the
`decay(2 * 0.25) < 1` that a forced minimum delta of `0.25` semitones would
give — the rule does not apply on this summation path. -/
theorem min_delta_rule_counterexample :
    DataProcessor.calcular_densidade_intervalar_psicoaustica ["C#4", "Db4"]
        (1 / 20) false false = 1 ∧
    decaimento_exponencial_modificado ((1 / 4) * 2) (1 / 20) ≠ 1 := by
  constructor
  · have e1 : Microtonal.note_to_midi "C#4" = 61 := by
      have h : Microtonal.note_to_midi "C#4" = (((4 : ℕ) : ℚ) + 1) * 12 + 1 := rfl
      rw [h]
      norm_num
    have e2 : Microtonal.note_to_midi "Db4" = 61 := by
      have h : Microtonal.note_to_midi "Db4" = (((4 : ℕ) : ℚ) + 1) * 12 + 1 := rfl
      rw [h]
      norm_num
    simp [DataProcessor.calcular_densidade_intervalar_psicoaustica, e1, e2,
      decaimento_exponencial_modificado, Finset.sum_Ico_eq_sum_range,
      Finset.sum_range_succ, List.getD]
  · rw [show ((1 / 4 : ℝ) * 2) = 1 / 2 by norm_num]
    unfold decaimento_exponencial_modificado
    rw [if_neg (by norm_num : ¬ ((1 / 2 : ℝ) = 0))]
    rw [Ne, Real.exp_eq_one_iff]
    norm_num

set_option maxHeartbeats 1600000 in
/-- C6 (amended): for two distinct non-empty note strings whose MIDI values
differ by less than `0.01` semitones, the delta fed to the decay function is
forced up to at least `0.25` semitones in
`densidade_intervalar.calcular_densidade_intervalar` (as `max(delta, 0.25)`)
and in `data_processor.calcular_densidade_intervalar_com_cents` (as exactly
`0.25`, provided neither note hits the fallback filter); the rule does NOT
hold in `data_processor.calcular_densidade_intervalar_psicoaustica`, which
uses the raw delta (see the counterexample). -/
theorem min_delta_rule_amended (n1 n2 : String) (lamb : ℝ)
    (h1 : n1 ≠ "") (h2 : n2 ≠ "") (hne : n1 ≠ n2)
    (hclose : |(Microtonal.note_to_midi n1 : ℚ) - Microtonal.note_to_midi n2| <
      1 / 100)
    (hm1 : Microtonal.note_to_midi n1 ≠ 60)
    (hm2 : Microtonal.note_to_midi n2 ≠ 60) :
    (1 / 4 : ℝ) ≤ max (|((Microtonal.note_to_midi n1 : ℚ) : ℝ) -
        ((Microtonal.note_to_midi n2 : ℚ) : ℝ)|) (1 / 4) ∧
    Densidade.calcular_densidade_intervalar [n1, n2] lamb false =
      decaimento_exponencial_modificado
        ((max (|((Microtonal.note_to_midi n1 : ℚ) : ℝ) -
             ((Microtonal.note_to_midi n2 : ℚ) : ℝ)|) (1 / 4)) * 2) lamb ∧
    DataProcessor.calcular_densidade_intervalar_com_cents [n1, n2] lamb =
      decaimento_exponencial_modificado ((1 / 4) * 2) lamb := by
  have hclose' : |((Microtonal.note_to_midi n1 : ℚ) : ℝ) -
      ((Microtonal.note_to_midi n2 : ℚ) : ℝ)| < (100 : ℝ)⁻¹ := by
    rw [← Rat.cast_sub, ← Rat.cast_abs,
      show ((100 : ℝ))⁻¹ = ((1 / 100 : ℚ) : ℝ) by norm_num]
    exact_mod_cast hclose
  refine ⟨le_max_right _ _, ?_, ?_⟩
  · simp [Densidade.calcular_densidade_intervalar, List.filter, h1, h2, hne,
      Finset.sum_Ico_eq_sum_range, Finset.sum_range_succ, List.getD, hclose']
  · simp [DataProcessor.calcular_densidade_intervalar_com_cents,
      DataProcessor.valid_pairs, DataProcessor.keep_nota, List.filterMap,
      h1, h2, hne, hm1, hm2,
      Finset.sum_Ico_eq_sum_range, Finset.sum_range_succ, List.getD, hclose']

/-- Witness for C6 (amended) at `C#4` vs `Db4` (both MIDI 61) with
`lamb = 1/20`. -/
theorem min_delta_rule_amended_witness :
    ("C#4" : String) ≠ "" ∧ ("Db4" : String) ≠ "" ∧ ("C#4" : String) ≠ "Db4" ∧
    |(Microtonal.note_to_midi "C#4" : ℚ) - Microtonal.note_to_midi "Db4"| < 1 / 100 ∧
    Microtonal.note_to_midi "C#4" ≠ 60 ∧ Microtonal.note_to_midi "Db4" ≠ 60 ∧
    ((1 / 4 : ℝ) ≤ max (|((Microtonal.note_to_midi "C#4" : ℚ) : ℝ) -
        ((Microtonal.note_to_midi "Db4" : ℚ) : ℝ)|) (1 / 4) ∧
     Densidade.calcular_densidade_intervalar ["C#4", "Db4"] (1 / 20) false =
       decaimento_exponencial_modificado
         ((max (|((Microtonal.note_to_midi "C#4" : ℚ) : ℝ) -
              ((Microtonal.note_to_midi "Db4" : ℚ) : ℝ)|) (1 / 4)) * 2) (1 / 20) ∧
     DataProcessor.calcular_densidade_intervalar_com_cents ["C#4", "Db4"] (1 / 20) =
       decaimento_exponencial_modificado ((1 / 4) * 2) (1 / 20)) := by
  have e1 : Microtonal.note_to_midi "C#4" = 61 := by
    have h : Microtonal.note_to_midi "C#4" = (((4 : ℕ) : ℚ) + 1) * 12 + 1 := rfl
    rw [h]
    norm_num
  have e2 : Microtonal.note_to_midi "Db4" = 61 := by
    have h : Microtonal.note_to_midi "Db4" = (((4 : ℕ) : ℚ) + 1) * 12 + 1 := rfl
    rw [h]
    norm_num
  refine ⟨by simp, by simp, by simp, by rw [e1, e2]; norm_num,
    by rw [e1]; norm_num, by rw [e2]; norm_num, ?_⟩
  exact min_delta_rule_amended "C#4" "Db4" (1 / 20) (by simp) (by simp) (by simp)
    (by rw [e1, e2]; norm_num) (by rw [e1]; norm_num) (by rw [e2]; norm_num)

/-! ## C7: idempotence of note normalization -/

/-- The first character is an upper-case note letter `A`–`G`. -/
def headUpperAG : List Char → Bool
  | [] => false
  | c :: _ => decide (c ∈ ['A', 'B', 'C', 'D', 'E', 'F', 'G'])

/-- Normalization facts for an upper-case note letter. -/
theorem upperFacts {l : Char}
    (h : decide (l ∈ ['A', 'B', 'C', 'D', 'E', 'F', 'G']) = true) :
    Char.toUpper l = l ∧ l ≠ '♭' ∧ l ≠ '♯' ∧ l ≠ '↑' ∧ l ≠ '↓' ∧ l ≠ ' ' ∧
    l ≠ '\t' ∧ l ≠ '\n' ∧ l ≠ '\r' := by
  simp only [decide_eq_true_eq, List.mem_cons, List.not_mem_nil, or_false] at h
  rcases h with rfl | rfl | rfl | rfl | rfl | rfl | rfl <;>
    refine ⟨rfl, ?_, ?_, ?_, ?_, ?_, ?_, ?_, ?_⟩ <;> decide

/-- Normalization facts for a digit character. -/
theorem digitFacts {d : Char} (hd : isDigitC d = true) :
    d ≠ '♭' ∧ d ≠ '♯' ∧ d ≠ '↑' ∧ d ≠ '↓' ∧ d ≠ ' ' ∧
    d ≠ '\t' ∧ d ≠ '\n' ∧ d ≠ '\r' ∧ (('b' : Char) == d) = false := by
  simp only [isDigitC, digitChars, decide_eq_true_eq, List.mem_cons,
    List.not_mem_nil, or_false] at hd
  rcases hd with rfl | rfl | rfl | rfl | rfl | rfl | rfl | rfl | rfl | rfl <;>
    refine ⟨?_, ?_, ?_, ?_, ?_, ?_, ?_, ?_, rfl⟩ <;> decide

/-- Normalization facts for a `+`/`-` marker character. -/
theorem signFacts {m : Char} (hm : isSignC m = true) :
    m ≠ '♭' ∧ m ≠ '♯' ∧ m ≠ '↑' ∧ m ≠ '↓' ∧ m ≠ ' ' ∧
    m ≠ '\t' ∧ m ≠ '\n' ∧ m ≠ '\r' ∧ (('b' : Char) == m) = false := by
  simp only [isSignC, decide_eq_true_eq] at hm
  rcases hm with rfl | rfl <;>
    refine ⟨?_, ?_, ?_, ?_, ?_, ?_, ?_, ?_, rfl⟩ <;> decide

/-- Shape inversion for `matchPlainNote`. -/
theorem matchPlainNote_shape {acc : Char → Bool} {s b : List Char} {d : Char}
    (h : matchPlainNote acc s = some (b, d)) :
    (∃ l, s = [l, d] ∧ isLetterAG l = true ∧ isDigitC d = true) ∨
    (∃ l a, s = [l, a, d] ∧ isLetterAG l = true ∧ acc a = true ∧
      isDigitC d = true) := by
  unfold matchPlainNote at h
  split at h
  · split at h
    · rename_i hc
      simp only [Option.some_inj, Prod.mk.injEq] at h
      obtain ⟨-, rfl⟩ := h
      simp only [Bool.and_eq_true] at hc
      exact Or.inl ⟨_, rfl, hc.1, hc.2⟩
    · exact absurd h (by simp)
  · split at h
    · rename_i hc
      simp only [Option.some_inj, Prod.mk.injEq] at h
      obtain ⟨-, rfl⟩ := h
      simp only [Bool.and_eq_true] at hc
      exact Or.inr ⟨_, _, rfl, hc.1.1, hc.1.2, hc.2⟩
    · exact absurd h (by simp)
  · exact absurd h (by simp)

/-- Shape inversion for `matchMarkedNote`. -/
theorem matchMarkedNote_shape {mk acc : Char → Bool} {s b : List Char}
    {m d : Char} (h : matchMarkedNote mk acc s = some (b, m, d)) :
    (∃ l, s = [l, m, d] ∧ isLetterAG l = true ∧ mk m = true ∧
      isDigitC d = true) ∨
    (∃ l a, s = [l, a, m, d] ∧ isLetterAG l = true ∧ acc a = true ∧
      mk m = true ∧ isDigitC d = true) := by
  unfold matchMarkedNote at h
  split at h
  · split at h
    · rename_i hc
      simp only [Option.some_inj, Prod.mk.injEq] at h
      obtain ⟨-, rfl, rfl⟩ := h
      simp only [Bool.and_eq_true] at hc
      exact Or.inl ⟨_, rfl, hc.1.1, hc.1.2, hc.2⟩
    · exact absurd h (by simp)
  · split at h
    · rename_i hc
      simp only [Option.some_inj, Prod.mk.injEq] at h
      obtain ⟨-, rfl, rfl⟩ := h
      simp only [Bool.and_eq_true] at hc
      exact Or.inr ⟨_, _, rfl, hc.1.1.1, hc.1.1.2, hc.1.2, hc.2⟩
    · exact absurd h (by simp)
  · exact absurd h (by simp)

/-- Shape inversion for `matchCentsPlain`. -/
theorem matchCentsPlain_shape {acc : Char → Bool} {s b : List Char} {v : ℤ}
    (h : matchCentsPlain acc s = some (b, v)) :
    (∃ l d sg e1, s = [l, d, sg, e1, 'c'] ∧ isLetterAG l = true ∧
      isDigitC d = true ∧ isSignC sg = true ∧ isDigitC e1 = true) ∨
    (∃ l a d sg e1, s = [l, a, d, sg, e1, 'c'] ∧ isLetterAG l = true ∧
      acc a = true ∧ isDigitC d = true ∧ isSignC sg = true ∧
      isDigitC e1 = true) ∨
    (∃ l d sg e1 e2, s = [l, d, sg, e1, e2, 'c'] ∧ isLetterAG l = true ∧
      isDigitC d = true ∧ isSignC sg = true ∧ isDigitC e1 = true ∧
      isDigitC e2 = true) ∨
    (∃ l a d sg e1 e2, s = [l, a, d, sg, e1, e2, 'c'] ∧ isLetterAG l = true ∧
      acc a = true ∧ isDigitC d = true ∧ isSignC sg = true ∧
      isDigitC e1 = true ∧ isDigitC e2 = true) := by
  unfold matchCentsPlain at h
  split at h
  · split at h
    · rename_i hc
      simp only [Bool.and_eq_true] at hc
      exact Or.inl ⟨_, _, _, _, rfl, hc.1.1.1, hc.1.1.2, hc.1.2, hc.2⟩
    · exact absurd h (by simp)
  · split at h
    · rename_i hc
      simp only [Bool.and_eq_true] at hc
      exact Or.inr (Or.inl ⟨_, _, _, _, _, rfl, hc.1.1.1.1, hc.1.1.1.2,
        hc.1.1.2, hc.1.2, hc.2⟩)
    · split at h
      · rename_i hc
        simp only [Bool.and_eq_true] at hc
        exact Or.inr (Or.inr (Or.inl ⟨_, _, _, _, _, rfl, hc.1.1.1.1,
          hc.1.1.1.2, hc.1.1.2, hc.1.2, hc.2⟩))
      · exact absurd h (by simp)
  · split at h
    · rename_i hc
      simp only [Bool.and_eq_true] at hc
      exact Or.inr (Or.inr (Or.inr ⟨_, _, _, _, _, _, rfl, hc.1.1.1.1.1,
        hc.1.1.1.1.2, hc.1.1.1.2, hc.1.1.2, hc.1.2, hc.2⟩))
    · exact absurd h (by simp)
  · exact absurd h (by simp)

set_option maxHeartbeats 8000000 in
/-- Fixpoint of normalization: a bare letter-digit note. -/
theorem fixA2 (l d : Char)
    (hl : decide (l ∈ ['A', 'B', 'C', 'D', 'E', 'F', 'G']) = true)
    (hd : isDigitC d = true) :
    UtilsNotes.to_sharp [l, d] = [l, d] ∧
    UtilsNotes.normalize_note_string [l, d] = [l, d] := by
  constructor <;>
    simp [UtilsNotes.normalize_note_string, UtilsNotes.cleanNote,
      UtilsNotes.pyStrip, UtilsNotes.isWsp, UtilsNotes.replUnicode,
      UtilsNotes.to_sharp, UtilsNotes.flatRewrite, UtilsNotes.flats,
      UtilsNotes.capitalizeNote, matchMarkedNote, isArrowC, isAccHB,
      List.find?, List.isPrefixOf, upperFacts hl, digitFacts hd]

set_option maxHeartbeats 8000000 in
/-- Fixpoint of normalization: a sharped letter-digit note. -/
theorem fixA3 (l d : Char)
    (hl : decide (l ∈ ['A', 'B', 'C', 'D', 'E', 'F', 'G']) = true)
    (hd : isDigitC d = true) :
    UtilsNotes.to_sharp [l, '#', d] = [l, '#', d] ∧
    UtilsNotes.normalize_note_string [l, '#', d] = [l, '#', d] := by
  constructor <;>
    simp [UtilsNotes.normalize_note_string, UtilsNotes.cleanNote,
      UtilsNotes.pyStrip, UtilsNotes.isWsp, UtilsNotes.replUnicode,
      UtilsNotes.to_sharp, UtilsNotes.flatRewrite, UtilsNotes.flats,
      UtilsNotes.capitalizeNote, matchMarkedNote, isArrowC, isAccHB,
      List.find?, List.isPrefixOf, upperFacts hl, digitFacts hd]

set_option maxHeartbeats 8000000 in
/-- Fixpoint of normalization: a quarter-tone note without accidental. -/
theorem fixSign3 (l m d : Char)
    (hl : decide (l ∈ ['A', 'B', 'C', 'D', 'E', 'F', 'G']) = true)
    (hm : isSignC m = true) (hd : isDigitC d = true) :
    UtilsNotes.to_sharp [l, m, d] = [l, m, d] ∧
    UtilsNotes.normalize_note_string [l, m, d] = [l, m, d] := by
  constructor <;>
    simp [UtilsNotes.normalize_note_string, UtilsNotes.cleanNote,
      UtilsNotes.pyStrip, UtilsNotes.isWsp, UtilsNotes.replUnicode,
      UtilsNotes.to_sharp, UtilsNotes.flatRewrite, UtilsNotes.flats,
      UtilsNotes.capitalizeNote, matchMarkedNote, isArrowC, isAccHB,
      List.find?, List.isPrefixOf, upperFacts hl, signFacts hm, digitFacts hd]

set_option maxHeartbeats 8000000 in
/-- Fixpoint of normalization: a sharped quarter-tone note. -/
theorem fixSign4 (l m d : Char)
    (hl : decide (l ∈ ['A', 'B', 'C', 'D', 'E', 'F', 'G']) = true)
    (hm : isSignC m = true) (hd : isDigitC d = true) :
    UtilsNotes.to_sharp [l, '#', m, d] = [l, '#', m, d] ∧
    UtilsNotes.normalize_note_string [l, '#', m, d] = [l, '#', m, d] := by
  constructor <;>
    simp [UtilsNotes.normalize_note_string, UtilsNotes.cleanNote,
      UtilsNotes.pyStrip, UtilsNotes.isWsp, UtilsNotes.replUnicode,
      UtilsNotes.to_sharp, UtilsNotes.flatRewrite, UtilsNotes.flats,
      UtilsNotes.capitalizeNote, matchMarkedNote, isArrowC, isAccHB,
      List.find?, List.isPrefixOf, upperFacts hl, signFacts hm, digitFacts hd]

set_option maxHeartbeats 8000000 in
/-- Fixpoint of normalization: a one-digit cents note without accidental. -/
theorem fixCents5 (l d sg e1 : Char)
    (hl : decide (l ∈ ['A', 'B', 'C', 'D', 'E', 'F', 'G']) = true)
    (hd : isDigitC d = true) (hsg : isSignC sg = true)
    (he1 : isDigitC e1 = true) :
    UtilsNotes.to_sharp [l, d, sg, e1, 'c'] = [l, d, sg, e1, 'c'] ∧
    UtilsNotes.normalize_note_string [l, d, sg, e1, 'c'] =
      [l, d, sg, e1, 'c'] := by
  constructor <;>
    simp [UtilsNotes.normalize_note_string, UtilsNotes.cleanNote,
      UtilsNotes.pyStrip, UtilsNotes.isWsp, UtilsNotes.replUnicode,
      UtilsNotes.to_sharp, UtilsNotes.flatRewrite, UtilsNotes.flats,
      UtilsNotes.capitalizeNote, matchMarkedNote, isArrowC, isAccHB,
      List.find?, List.isPrefixOf, upperFacts hl, digitFacts hd, signFacts hsg, digitFacts he1]

set_option maxHeartbeats 8000000 in
/-- Fixpoint of normalization: a sharped one-digit cents note. -/
theorem fixCents6s (l d sg e1 : Char)
    (hl : decide (l ∈ ['A', 'B', 'C', 'D', 'E', 'F', 'G']) = true)
    (hd : isDigitC d = true) (hsg : isSignC sg = true)
    (he1 : isDigitC e1 = true) :
    UtilsNotes.to_sharp [l, '#', d, sg, e1, 'c'] = [l, '#', d, sg, e1, 'c'] ∧
    UtilsNotes.normalize_note_string [l, '#', d, sg, e1, 'c'] =
      [l, '#', d, sg, e1, 'c'] := by
  constructor <;>
    simp [UtilsNotes.normalize_note_string, UtilsNotes.cleanNote,
      UtilsNotes.pyStrip, UtilsNotes.isWsp, UtilsNotes.replUnicode,
      UtilsNotes.to_sharp, UtilsNotes.flatRewrite, UtilsNotes.flats,
      UtilsNotes.capitalizeNote, matchMarkedNote, isArrowC, isAccHB,
      List.find?, List.isPrefixOf, upperFacts hl, digitFacts hd, signFacts hsg, digitFacts he1]

set_option maxHeartbeats 8000000 in
/-- Fixpoint of normalization: a two-digit cents note without accidental. -/
theorem fixCents6b (l d sg e1 e2 : Char)
    (hl : decide (l ∈ ['A', 'B', 'C', 'D', 'E', 'F', 'G']) = true)
    (hd : isDigitC d = true) (hsg : isSignC sg = true)
    (he1 : isDigitC e1 = true) (he2 : isDigitC e2 = true) :
    UtilsNotes.to_sharp [l, d, sg, e1, e2, 'c'] = [l, d, sg, e1, e2, 'c'] ∧
    UtilsNotes.normalize_note_string [l, d, sg, e1, e2, 'c'] =
      [l, d, sg, e1, e2, 'c'] := by
  constructor <;>
    simp [UtilsNotes.normalize_note_string, UtilsNotes.cleanNote,
      UtilsNotes.pyStrip, UtilsNotes.isWsp, UtilsNotes.replUnicode,
      UtilsNotes.to_sharp, UtilsNotes.flatRewrite, UtilsNotes.flats,
      UtilsNotes.capitalizeNote, matchMarkedNote, isArrowC, isAccHB,
      List.find?, List.isPrefixOf, upperFacts hl, digitFacts hd, signFacts hsg, digitFacts he1,
      digitFacts he2]

set_option maxHeartbeats 8000000 in
/-- Fixpoint of normalization: a sharped two-digit cents note. -/
theorem fixCents7 (l d sg e1 e2 : Char)
    (hl : decide (l ∈ ['A', 'B', 'C', 'D', 'E', 'F', 'G']) = true)
    (hd : isDigitC d = true) (hsg : isSignC sg = true)
    (he1 : isDigitC e1 = true) (he2 : isDigitC e2 = true) :
    UtilsNotes.to_sharp [l, '#', d, sg, e1, e2, 'c'] =
      [l, '#', d, sg, e1, e2, 'c'] ∧
    UtilsNotes.normalize_note_string [l, '#', d, sg, e1, e2, 'c'] =
      [l, '#', d, sg, e1, e2, 'c'] := by
  constructor <;>
    simp [UtilsNotes.normalize_note_string, UtilsNotes.cleanNote,
      UtilsNotes.pyStrip, UtilsNotes.isWsp, UtilsNotes.replUnicode,
      UtilsNotes.to_sharp, UtilsNotes.flatRewrite, UtilsNotes.flats,
      UtilsNotes.capitalizeNote, matchMarkedNote, isArrowC, isAccHB,
      List.find?, List.isPrefixOf, upperFacts hl, digitFacts hd, signFacts hsg, digitFacts he1,
      digitFacts he2]

set_option maxHeartbeats 400000000 in
/-- C7 (amended): normalization is idempotent on validator-accepted notes
whose pitch letter is upper-case, and `to_sharp` fixes the normalized form. -/
theorem normalize_idempotent_amended (s : String)
    (hv : UtilsNotes.is_valid_note s = true)
    (hu : headUpperAG s.data = true) :
    UtilsNotes.to_sharp (UtilsNotes.normalize_note_string s.data) =
      UtilsNotes.normalize_note_string s.data ∧
    UtilsNotes.normalize_note_string
        (UtilsNotes.normalize_note_string s.data) =
      UtilsNotes.normalize_note_string s.data := by
  unfold UtilsNotes.is_valid_note at hv
  simp only [Bool.or_eq_true, Option.isSome_iff_exists] at hv
  rcases hv with ((⟨⟨b, d⟩, hm⟩ | ⟨⟨b, m, d⟩, hm⟩) | ⟨⟨b, m, d⟩, hm⟩) |
    ⟨⟨b, v⟩, hm⟩
  · rcases matchPlainNote_shape hm with ⟨l, hs, hl, hd⟩ | ⟨l, a, hs, hl, ha, hd⟩
    · rw [hs] at hu ⊢
      simp only [headUpperAG] at hu
      rw [(fixA2 l d hu hd).2]
      exact fixA2 l d hu hd
    · rw [hs] at hu ⊢
      simp only [headUpperAG] at hu
      simp only [isAccHB, decide_eq_true_eq] at ha
      rcases ha with rfl | rfl
      · rw [(fixA3 l d hu hd).2]
        exact fixA3 l d hu hd
      · simp only [decide_eq_true_eq, List.mem_cons, List.not_mem_nil,
          or_false] at hu
        rcases hu with rfl | rfl | rfl | rfl | rfl | rfl | rfl
        · have h1 : UtilsNotes.normalize_note_string ['A', 'b', d] =
              ['G', '#', d] := by
            simp [UtilsNotes.normalize_note_string, UtilsNotes.cleanNote,
          UtilsNotes.pyStrip, UtilsNotes.isWsp, UtilsNotes.replUnicode,
          UtilsNotes.to_sharp, UtilsNotes.flatRewrite, UtilsNotes.flats,
          UtilsNotes.capitalizeNote, matchMarkedNote, isArrowC, isAccHB,
          List.find?, List.isPrefixOf, digitFacts hd]
          rw [h1]
          exact fixA3 'G' d rfl hd
        · have h1 : UtilsNotes.normalize_note_string ['B', 'b', d] =
              ['A', '#', d] := by
            simp [UtilsNotes.normalize_note_string, UtilsNotes.cleanNote,
          UtilsNotes.pyStrip, UtilsNotes.isWsp, UtilsNotes.replUnicode,
          UtilsNotes.to_sharp, UtilsNotes.flatRewrite, UtilsNotes.flats,
          UtilsNotes.capitalizeNote, matchMarkedNote, isArrowC, isAccHB,
          List.find?, List.isPrefixOf, digitFacts hd]
          rw [h1]
          exact fixA3 'A' d rfl hd
        · have h1 : UtilsNotes.normalize_note_string ['C', 'b', d] =
              ['B', d] := by
            simp [UtilsNotes.normalize_note_string, UtilsNotes.cleanNote,
          UtilsNotes.pyStrip, UtilsNotes.isWsp, UtilsNotes.replUnicode,
          UtilsNotes.to_sharp, UtilsNotes.flatRewrite, UtilsNotes.flats,
          UtilsNotes.capitalizeNote, matchMarkedNote, isArrowC, isAccHB,
          List.find?, List.isPrefixOf, digitFacts hd]
          rw [h1]
          exact fixA2 'B' d rfl hd
        · have h1 : UtilsNotes.normalize_note_string ['D', 'b', d] =
              ['C', '#', d] := by
            simp [UtilsNotes.normalize_note_string, UtilsNotes.cleanNote,
          UtilsNotes.pyStrip, UtilsNotes.isWsp, UtilsNotes.replUnicode,
          UtilsNotes.to_sharp, UtilsNotes.flatRewrite, UtilsNotes.flats,
          UtilsNotes.capitalizeNote, matchMarkedNote, isArrowC, isAccHB,
          List.find?, List.isPrefixOf, digitFacts hd]
          rw [h1]
          exact fixA3 'C' d rfl hd
        · have h1 : UtilsNotes.normalize_note_string ['E', 'b', d] =
              ['D', '#', d] := by
            simp [UtilsNotes.normalize_note_string, UtilsNotes.cleanNote,
          UtilsNotes.pyStrip, UtilsNotes.isWsp, UtilsNotes.replUnicode,
          UtilsNotes.to_sharp, UtilsNotes.flatRewrite, UtilsNotes.flats,
          UtilsNotes.capitalizeNote, matchMarkedNote, isArrowC, isAccHB,
          List.find?, List.isPrefixOf, digitFacts hd]
          rw [h1]
          exact fixA3 'D' d rfl hd
        · have h1 : UtilsNotes.normalize_note_string ['F', 'b', d] =
              ['E', d] := by
            simp [UtilsNotes.normalize_note_string, UtilsNotes.cleanNote,
          UtilsNotes.pyStrip, UtilsNotes.isWsp, UtilsNotes.replUnicode,
          UtilsNotes.to_sharp, UtilsNotes.flatRewrite, UtilsNotes.flats,
          UtilsNotes.capitalizeNote, matchMarkedNote, isArrowC, isAccHB,
          List.find?, List.isPrefixOf, digitFacts hd]
          rw [h1]
          exact fixA2 'E' d rfl hd
        · have h1 : UtilsNotes.normalize_note_string ['G', 'b', d] =
              ['F', '#', d] := by
            simp [UtilsNotes.normalize_note_string, UtilsNotes.cleanNote,
          UtilsNotes.pyStrip, UtilsNotes.isWsp, UtilsNotes.replUnicode,
          UtilsNotes.to_sharp, UtilsNotes.flatRewrite, UtilsNotes.flats,
          UtilsNotes.capitalizeNote, matchMarkedNote, isArrowC, isAccHB,
          List.find?, List.isPrefixOf, digitFacts hd]
          rw [h1]
          exact fixA3 'F' d rfl hd
  · rcases matchMarkedNote_shape hm with ⟨l, hs, hl, hmk, hd⟩ |
      ⟨l, a, hs, hl, ha, hmk, hd⟩
    · rw [hs] at hu ⊢
      simp only [headUpperAG] at hu
      rw [(fixSign3 l m d hu hmk hd).2]
      exact fixSign3 l m d hu hmk hd
    · rw [hs] at hu ⊢
      simp only [headUpperAG] at hu
      simp only [isAccHB, decide_eq_true_eq] at ha
      rcases ha with rfl | rfl
      · rw [(fixSign4 l m d hu hmk hd).2]
        exact fixSign4 l m d hu hmk hd
      · simp only [decide_eq_true_eq, List.mem_cons, List.not_mem_nil,
          or_false] at hu
        rcases hu with rfl | rfl | rfl | rfl | rfl | rfl | rfl
        · have h1 : UtilsNotes.normalize_note_string ['A', 'b', m, d] =
              ['G', '#', m, d] := by
            simp [UtilsNotes.normalize_note_string, UtilsNotes.cleanNote,
          UtilsNotes.pyStrip, UtilsNotes.isWsp, UtilsNotes.replUnicode,
          UtilsNotes.to_sharp, UtilsNotes.flatRewrite, UtilsNotes.flats,
          UtilsNotes.capitalizeNote, matchMarkedNote, isArrowC, isAccHB,
          List.find?, List.isPrefixOf, signFacts hmk, digitFacts hd]
          rw [h1]
          exact fixSign4 'G' m d rfl hmk hd
        · have h1 : UtilsNotes.normalize_note_string ['B', 'b', m, d] =
              ['A', '#', m, d] := by
            simp [UtilsNotes.normalize_note_string, UtilsNotes.cleanNote,
          UtilsNotes.pyStrip, UtilsNotes.isWsp, UtilsNotes.replUnicode,
          UtilsNotes.to_sharp, UtilsNotes.flatRewrite, UtilsNotes.flats,
          UtilsNotes.capitalizeNote, matchMarkedNote, isArrowC, isAccHB,
          List.find?, List.isPrefixOf, signFacts hmk, digitFacts hd]
          rw [h1]
          exact fixSign4 'A' m d rfl hmk hd
        · have h1 : UtilsNotes.normalize_note_string ['C', 'b', m, d] =
              ['B', m, d] := by
            simp [UtilsNotes.normalize_note_string, UtilsNotes.cleanNote,
          UtilsNotes.pyStrip, UtilsNotes.isWsp, UtilsNotes.replUnicode,
          UtilsNotes.to_sharp, UtilsNotes.flatRewrite, UtilsNotes.flats,
          UtilsNotes.capitalizeNote, matchMarkedNote, isArrowC, isAccHB,
          List.find?, List.isPrefixOf, signFacts hmk, digitFacts hd]
          rw [h1]
          exact fixSign3 'B' m d rfl hmk hd
        · have h1 : UtilsNotes.normalize_note_string ['D', 'b', m, d] =
              ['C', '#', m, d] := by
            simp [UtilsNotes.normalize_note_string, UtilsNotes.cleanNote,
          UtilsNotes.pyStrip, UtilsNotes.isWsp, UtilsNotes.replUnicode,
          UtilsNotes.to_sharp, UtilsNotes.flatRewrite, UtilsNotes.flats,
          UtilsNotes.capitalizeNote, matchMarkedNote, isArrowC, isAccHB,
          List.find?, List.isPrefixOf, signFacts hmk, digitFacts hd]
          rw [h1]
          exact fixSign4 'C' m d rfl hmk hd
        · have h1 : UtilsNotes.normalize_note_string ['E', 'b', m, d] =
              ['D', '#', m, d] := by
            simp [UtilsNotes.normalize_note_string, UtilsNotes.cleanNote,
          UtilsNotes.pyStrip, UtilsNotes.isWsp, UtilsNotes.replUnicode,
          UtilsNotes.to_sharp, UtilsNotes.flatRewrite, UtilsNotes.flats,
          UtilsNotes.capitalizeNote, matchMarkedNote, isArrowC, isAccHB,
          List.find?, List.isPrefixOf, signFacts hmk, digitFacts hd]
          rw [h1]
          exact fixSign4 'D' m d rfl hmk hd
        · have h1 : UtilsNotes.normalize_note_string ['F', 'b', m, d] =
              ['E', m, d] := by
            simp [UtilsNotes.normalize_note_string, UtilsNotes.cleanNote,
          UtilsNotes.pyStrip, UtilsNotes.isWsp, UtilsNotes.replUnicode,
          UtilsNotes.to_sharp, UtilsNotes.flatRewrite, UtilsNotes.flats,
          UtilsNotes.capitalizeNote, matchMarkedNote, isArrowC, isAccHB,
          List.find?, List.isPrefixOf, signFacts hmk, digitFacts hd]
          rw [h1]
          exact fixSign3 'E' m d rfl hmk hd
        · have h1 : UtilsNotes.normalize_note_string ['G', 'b', m, d] =
              ['F', '#', m, d] := by
            simp [UtilsNotes.normalize_note_string, UtilsNotes.cleanNote,
          UtilsNotes.pyStrip, UtilsNotes.isWsp, UtilsNotes.replUnicode,
          UtilsNotes.to_sharp, UtilsNotes.flatRewrite, UtilsNotes.flats,
          UtilsNotes.capitalizeNote, matchMarkedNote, isArrowC, isAccHB,
          List.find?, List.isPrefixOf, signFacts hmk, digitFacts hd]
          rw [h1]
          exact fixSign4 'F' m d rfl hmk hd
  · rcases matchMarkedNote_shape hm with ⟨l, hs, hl, hmk, hd⟩ |
      ⟨l, a, hs, hl, ha, hmk, hd⟩
    · rw [hs] at hu ⊢
      simp only [headUpperAG] at hu
      simp only [isArrowC, decide_eq_true_eq] at hmk
      rcases hmk with rfl | rfl
      · have h1 : UtilsNotes.normalize_note_string [l, '↑', d] =
            [l, '+', d] := by
          simp [UtilsNotes.normalize_note_string, UtilsNotes.cleanNote,
      UtilsNotes.pyStrip, UtilsNotes.isWsp, UtilsNotes.replUnicode,
      UtilsNotes.to_sharp, UtilsNotes.flatRewrite, UtilsNotes.flats,
      UtilsNotes.capitalizeNote, matchMarkedNote, isArrowC, isAccHB,
      List.find?, List.isPrefixOf, upperFacts hu, digitFacts hd]
        rw [h1]
        exact fixSign3 l '+' d hu rfl hd
      · have h1 : UtilsNotes.normalize_note_string [l, '↓', d] =
            [l, '-', d] := by
          simp [UtilsNotes.normalize_note_string, UtilsNotes.cleanNote,
      UtilsNotes.pyStrip, UtilsNotes.isWsp, UtilsNotes.replUnicode,
      UtilsNotes.to_sharp, UtilsNotes.flatRewrite, UtilsNotes.flats,
      UtilsNotes.capitalizeNote, matchMarkedNote, isArrowC, isAccHB,
      List.find?, List.isPrefixOf, upperFacts hu, digitFacts hd]
        rw [h1]
        exact fixSign3 l '-' d hu rfl hd
    · rw [hs] at hu ⊢
      simp only [headUpperAG] at hu
      simp only [isAccHB, decide_eq_true_eq] at ha
      simp only [isArrowC, decide_eq_true_eq] at hmk
      rcases ha with rfl | rfl
      · rcases hmk with rfl | rfl
        · have h1 : UtilsNotes.normalize_note_string [l, '#', '↑', d] =
              [l, '#', '+', d] := by
            simp [UtilsNotes.normalize_note_string, UtilsNotes.cleanNote,
      UtilsNotes.pyStrip, UtilsNotes.isWsp, UtilsNotes.replUnicode,
      UtilsNotes.to_sharp, UtilsNotes.flatRewrite, UtilsNotes.flats,
      UtilsNotes.capitalizeNote, matchMarkedNote, isArrowC, isAccHB,
      List.find?, List.isPrefixOf, upperFacts hu, digitFacts hd]
          rw [h1]
          exact fixSign4 l '+' d hu rfl hd
        · have h1 : UtilsNotes.normalize_note_string [l, '#', '↓', d] =
              [l, '#', '-', d] := by
            simp [UtilsNotes.normalize_note_string, UtilsNotes.cleanNote,
      UtilsNotes.pyStrip, UtilsNotes.isWsp, UtilsNotes.replUnicode,
      UtilsNotes.to_sharp, UtilsNotes.flatRewrite, UtilsNotes.flats,
      UtilsNotes.capitalizeNote, matchMarkedNote, isArrowC, isAccHB,
      List.find?, List.isPrefixOf, upperFacts hu, digitFacts hd]
          rw [h1]
          exact fixSign4 l '-' d hu rfl hd
      · simp only [decide_eq_true_eq, List.mem_cons, List.not_mem_nil,
          or_false] at hu
        rcases hu with rfl | rfl | rfl | rfl | rfl | rfl | rfl
        · rcases hmk with rfl | rfl
          · have h1 : UtilsNotes.normalize_note_string ['A', 'b', '↑', d] =
                ['G', '#', '+', d] := by
              simp [UtilsNotes.normalize_note_string, UtilsNotes.cleanNote,
          UtilsNotes.pyStrip, UtilsNotes.isWsp, UtilsNotes.replUnicode,
          UtilsNotes.to_sharp, UtilsNotes.flatRewrite, UtilsNotes.flats,
          UtilsNotes.capitalizeNote, matchMarkedNote, isArrowC, isAccHB,
          List.find?, List.isPrefixOf, digitFacts hd]
            rw [h1]
            exact fixSign4 'G' '+' d rfl rfl hd
          · have h1 : UtilsNotes.normalize_note_string ['A', 'b', '↓', d] =
                ['G', '#', '-', d] := by
              simp [UtilsNotes.normalize_note_string, UtilsNotes.cleanNote,
          UtilsNotes.pyStrip, UtilsNotes.isWsp, UtilsNotes.replUnicode,
          UtilsNotes.to_sharp, UtilsNotes.flatRewrite, UtilsNotes.flats,
          UtilsNotes.capitalizeNote, matchMarkedNote, isArrowC, isAccHB,
          List.find?, List.isPrefixOf, digitFacts hd]
            rw [h1]
            exact fixSign4 'G' '-' d rfl rfl hd
        · rcases hmk with rfl | rfl
          · have h1 : UtilsNotes.normalize_note_string ['B', 'b', '↑', d] =
                ['A', '#', '+', d] := by
              simp [UtilsNotes.normalize_note_string, UtilsNotes.cleanNote,
          UtilsNotes.pyStrip, UtilsNotes.isWsp, UtilsNotes.replUnicode,
          UtilsNotes.to_sharp, UtilsNotes.flatRewrite, UtilsNotes.flats,
          UtilsNotes.capitalizeNote, matchMarkedNote, isArrowC, isAccHB,
          List.find?, List.isPrefixOf, digitFacts hd]
            rw [h1]
            exact fixSign4 'A' '+' d rfl rfl hd
          · have h1 : UtilsNotes.normalize_note_string ['B', 'b', '↓', d] =
                ['A', '#', '-', d] := by
              simp [UtilsNotes.normalize_note_string, UtilsNotes.cleanNote,
          UtilsNotes.pyStrip, UtilsNotes.isWsp, UtilsNotes.replUnicode,
          UtilsNotes.to_sharp, UtilsNotes.flatRewrite, UtilsNotes.flats,
          UtilsNotes.capitalizeNote, matchMarkedNote, isArrowC, isAccHB,
          List.find?, List.isPrefixOf, digitFacts hd]
            rw [h1]
            exact fixSign4 'A' '-' d rfl rfl hd
        · rcases hmk with rfl | rfl
          · have h1 : UtilsNotes.normalize_note_string ['C', 'b', '↑', d] =
                ['B', '+', d] := by
              simp [UtilsNotes.normalize_note_string, UtilsNotes.cleanNote,
          UtilsNotes.pyStrip, UtilsNotes.isWsp, UtilsNotes.replUnicode,
          UtilsNotes.to_sharp, UtilsNotes.flatRewrite, UtilsNotes.flats,
          UtilsNotes.capitalizeNote, matchMarkedNote, isArrowC, isAccHB,
          List.find?, List.isPrefixOf, digitFacts hd]
            rw [h1]
            exact fixSign3 'B' '+' d rfl rfl hd
          · have h1 : UtilsNotes.normalize_note_string ['C', 'b', '↓', d] =
                ['B', '-', d] := by
              simp [UtilsNotes.normalize_note_string, UtilsNotes.cleanNote,
          UtilsNotes.pyStrip, UtilsNotes.isWsp, UtilsNotes.replUnicode,
          UtilsNotes.to_sharp, UtilsNotes.flatRewrite, UtilsNotes.flats,
          UtilsNotes.capitalizeNote, matchMarkedNote, isArrowC, isAccHB,
          List.find?, List.isPrefixOf, digitFacts hd]
            rw [h1]
            exact fixSign3 'B' '-' d rfl rfl hd
        · rcases hmk with rfl | rfl
          · have h1 : UtilsNotes.normalize_note_string ['D', 'b', '↑', d] =
                ['C', '#', '+', d] := by
              simp [UtilsNotes.normalize_note_string, UtilsNotes.cleanNote,
          UtilsNotes.pyStrip, UtilsNotes.isWsp, UtilsNotes.replUnicode,
          UtilsNotes.to_sharp, UtilsNotes.flatRewrite, UtilsNotes.flats,
          UtilsNotes.capitalizeNote, matchMarkedNote, isArrowC, isAccHB,
          List.find?, List.isPrefixOf, digitFacts hd]
            rw [h1]
            exact fixSign4 'C' '+' d rfl rfl hd
          · have h1 : UtilsNotes.normalize_note_string ['D', 'b', '↓', d] =
                ['C', '#', '-', d] := by
              simp [UtilsNotes.normalize_note_string, UtilsNotes.cleanNote,
          UtilsNotes.pyStrip, UtilsNotes.isWsp, UtilsNotes.replUnicode,
          UtilsNotes.to_sharp, UtilsNotes.flatRewrite, UtilsNotes.flats,
          UtilsNotes.capitalizeNote, matchMarkedNote, isArrowC, isAccHB,
          List.find?, List.isPrefixOf, digitFacts hd]
            rw [h1]
            exact fixSign4 'C' '-' d rfl rfl hd
        · rcases hmk with rfl | rfl
          · have h1 : UtilsNotes.normalize_note_string ['E', 'b', '↑', d] =
                ['D', '#', '+', d] := by
              simp [UtilsNotes.normalize_note_string, UtilsNotes.cleanNote,
          UtilsNotes.pyStrip, UtilsNotes.isWsp, UtilsNotes.replUnicode,
          UtilsNotes.to_sharp, UtilsNotes.flatRewrite, UtilsNotes.flats,
          UtilsNotes.capitalizeNote, matchMarkedNote, isArrowC, isAccHB,
          List.find?, List.isPrefixOf, digitFacts hd]
            rw [h1]
            exact fixSign4 'D' '+' d rfl rfl hd
          · have h1 : UtilsNotes.normalize_note_string ['E', 'b', '↓', d] =
                ['D', '#', '-', d] := by
              simp [UtilsNotes.normalize_note_string, UtilsNotes.cleanNote,
          UtilsNotes.pyStrip, UtilsNotes.isWsp, UtilsNotes.replUnicode,
          UtilsNotes.to_sharp, UtilsNotes.flatRewrite, UtilsNotes.flats,
          UtilsNotes.capitalizeNote, matchMarkedNote, isArrowC, isAccHB,
          List.find?, List.isPrefixOf, digitFacts hd]
            rw [h1]
            exact fixSign4 'D' '-' d rfl rfl hd
        · rcases hmk with rfl | rfl
          · have h1 : UtilsNotes.normalize_note_string ['F', 'b', '↑', d] =
                ['E', '+', d] := by
              simp [UtilsNotes.normalize_note_string, UtilsNotes.cleanNote,
          UtilsNotes.pyStrip, UtilsNotes.isWsp, UtilsNotes.replUnicode,
          UtilsNotes.to_sharp, UtilsNotes.flatRewrite, UtilsNotes.flats,
          UtilsNotes.capitalizeNote, matchMarkedNote, isArrowC, isAccHB,
          List.find?, List.isPrefixOf, digitFacts hd]
            rw [h1]
            exact fixSign3 'E' '+' d rfl rfl hd
          · have h1 : UtilsNotes.normalize_note_string ['F', 'b', '↓', d] =
                ['E', '-', d] := by
              simp [UtilsNotes.normalize_note_string, UtilsNotes.cleanNote,
          UtilsNotes.pyStrip, UtilsNotes.isWsp, UtilsNotes.replUnicode,
          UtilsNotes.to_sharp, UtilsNotes.flatRewrite, UtilsNotes.flats,
          UtilsNotes.capitalizeNote, matchMarkedNote, isArrowC, isAccHB,
          List.find?, List.isPrefixOf, digitFacts hd]
            rw [h1]
            exact fixSign3 'E' '-' d rfl rfl hd
        · rcases hmk with rfl | rfl
          · have h1 : UtilsNotes.normalize_note_string ['G', 'b', '↑', d] =
                ['F', '#', '+', d] := by
              simp [UtilsNotes.normalize_note_string, UtilsNotes.cleanNote,
          UtilsNotes.pyStrip, UtilsNotes.isWsp, UtilsNotes.replUnicode,
          UtilsNotes.to_sharp, UtilsNotes.flatRewrite, UtilsNotes.flats,
          UtilsNotes.capitalizeNote, matchMarkedNote, isArrowC, isAccHB,
          List.find?, List.isPrefixOf, digitFacts hd]
            rw [h1]
            exact fixSign4 'F' '+' d rfl rfl hd
          · have h1 : UtilsNotes.normalize_note_string ['G', 'b', '↓', d] =
                ['F', '#', '-', d] := by
              simp [UtilsNotes.normalize_note_string, UtilsNotes.cleanNote,
          UtilsNotes.pyStrip, UtilsNotes.isWsp, UtilsNotes.replUnicode,
          UtilsNotes.to_sharp, UtilsNotes.flatRewrite, UtilsNotes.flats,
          UtilsNotes.capitalizeNote, matchMarkedNote, isArrowC, isAccHB,
          List.find?, List.isPrefixOf, digitFacts hd]
            rw [h1]
            exact fixSign4 'F' '-' d rfl rfl hd
  · rcases matchCentsPlain_shape hm with ⟨l, d, sg, e1, hs, hl, hd, hsg, he1⟩ |
      ⟨l, a, d, sg, e1, hs, hl, ha, hd, hsg, he1⟩ |
      ⟨l, d, sg, e1, e2, hs, hl, hd, hsg, he1, he2⟩ |
      ⟨l, a, d, sg, e1, e2, hs, hl, ha, hd, hsg, he1, he2⟩
    · rw [hs] at hu ⊢
      simp only [headUpperAG] at hu
      rw [(fixCents5 l d sg e1 hu hd hsg he1).2]
      exact fixCents5 l d sg e1 hu hd hsg he1
    · rw [hs] at hu ⊢
      simp only [headUpperAG] at hu
      simp only [isAccHB, decide_eq_true_eq] at ha
      rcases ha with rfl | rfl
      · rw [(fixCents6s l d sg e1 hu hd hsg he1).2]
        exact fixCents6s l d sg e1 hu hd hsg he1
      · simp only [decide_eq_true_eq, List.mem_cons, List.not_mem_nil,
          or_false] at hu
        rcases hu with rfl | rfl | rfl | rfl | rfl | rfl | rfl
        · have h1 : UtilsNotes.normalize_note_string ['A', 'b', d, sg, e1, 'c'] =
              ['G', '#', d, sg, e1, 'c'] := by
            simp [UtilsNotes.normalize_note_string, UtilsNotes.cleanNote,
          UtilsNotes.pyStrip, UtilsNotes.isWsp, UtilsNotes.replUnicode,
          UtilsNotes.to_sharp, UtilsNotes.flatRewrite, UtilsNotes.flats,
          UtilsNotes.capitalizeNote, matchMarkedNote, isArrowC, isAccHB,
          List.find?, List.isPrefixOf, digitFacts hd, signFacts hsg, digitFacts he1]
          rw [h1]
          exact fixCents6s 'G' d sg e1 rfl hd hsg he1
        · have h1 : UtilsNotes.normalize_note_string ['B', 'b', d, sg, e1, 'c'] =
              ['A', '#', d, sg, e1, 'c'] := by
            simp [UtilsNotes.normalize_note_string, UtilsNotes.cleanNote,
          UtilsNotes.pyStrip, UtilsNotes.isWsp, UtilsNotes.replUnicode,
          UtilsNotes.to_sharp, UtilsNotes.flatRewrite, UtilsNotes.flats,
          UtilsNotes.capitalizeNote, matchMarkedNote, isArrowC, isAccHB,
          List.find?, List.isPrefixOf, digitFacts hd, signFacts hsg, digitFacts he1]
          rw [h1]
          exact fixCents6s 'A' d sg e1 rfl hd hsg he1
        · have h1 : UtilsNotes.normalize_note_string ['C', 'b', d, sg, e1, 'c'] =
              ['B', d, sg, e1, 'c'] := by
            simp [UtilsNotes.normalize_note_string, UtilsNotes.cleanNote,
          UtilsNotes.pyStrip, UtilsNotes.isWsp, UtilsNotes.replUnicode,
          UtilsNotes.to_sharp, UtilsNotes.flatRewrite, UtilsNotes.flats,
          UtilsNotes.capitalizeNote, matchMarkedNote, isArrowC, isAccHB,
          List.find?, List.isPrefixOf, digitFacts hd, signFacts hsg, digitFacts he1]
          rw [h1]
          exact fixCents5 'B' d sg e1 rfl hd hsg he1
        · have h1 : UtilsNotes.normalize_note_string ['D', 'b', d, sg, e1, 'c'] =
              ['C', '#', d, sg, e1, 'c'] := by
            simp [UtilsNotes.normalize_note_string, UtilsNotes.cleanNote,
          UtilsNotes.pyStrip, UtilsNotes.isWsp, UtilsNotes.replUnicode,
          UtilsNotes.to_sharp, UtilsNotes.flatRewrite, UtilsNotes.flats,
          UtilsNotes.capitalizeNote, matchMarkedNote, isArrowC, isAccHB,
          List.find?, List.isPrefixOf, digitFacts hd, signFacts hsg, digitFacts he1]
          rw [h1]
          exact fixCents6s 'C' d sg e1 rfl hd hsg he1
        · have h1 : UtilsNotes.normalize_note_string ['E', 'b', d, sg, e1, 'c'] =
              ['D', '#', d, sg, e1, 'c'] := by
            simp [UtilsNotes.normalize_note_string, UtilsNotes.cleanNote,
          UtilsNotes.pyStrip, UtilsNotes.isWsp, UtilsNotes.replUnicode,
          UtilsNotes.to_sharp, UtilsNotes.flatRewrite, UtilsNotes.flats,
          UtilsNotes.capitalizeNote, matchMarkedNote, isArrowC, isAccHB,
          List.find?, List.isPrefixOf, digitFacts hd, signFacts hsg, digitFacts he1]
          rw [h1]
          exact fixCents6s 'D' d sg e1 rfl hd hsg he1
        · have h1 : UtilsNotes.normalize_note_string ['F', 'b', d, sg, e1, 'c'] =
              ['E', d, sg, e1, 'c'] := by
            simp [UtilsNotes.normalize_note_string, UtilsNotes.cleanNote,
          UtilsNotes.pyStrip, UtilsNotes.isWsp, UtilsNotes.replUnicode,
          UtilsNotes.to_sharp, UtilsNotes.flatRewrite, UtilsNotes.flats,
          UtilsNotes.capitalizeNote, matchMarkedNote, isArrowC, isAccHB,
          List.find?, List.isPrefixOf, digitFacts hd, signFacts hsg, digitFacts he1]
          rw [h1]
          exact fixCents5 'E' d sg e1 rfl hd hsg he1
        · have h1 : UtilsNotes.normalize_note_string ['G', 'b', d, sg, e1, 'c'] =
              ['F', '#', d, sg, e1, 'c'] := by
            simp [UtilsNotes.normalize_note_string, UtilsNotes.cleanNote,
          UtilsNotes.pyStrip, UtilsNotes.isWsp, UtilsNotes.replUnicode,
          UtilsNotes.to_sharp, UtilsNotes.flatRewrite, UtilsNotes.flats,
          UtilsNotes.capitalizeNote, matchMarkedNote, isArrowC, isAccHB,
          List.find?, List.isPrefixOf, digitFacts hd, signFacts hsg, digitFacts he1]
          rw [h1]
          exact fixCents6s 'F' d sg e1 rfl hd hsg he1
    · rw [hs] at hu ⊢
      simp only [headUpperAG] at hu
      rw [(fixCents6b l d sg e1 e2 hu hd hsg he1 he2).2]
      exact fixCents6b l d sg e1 e2 hu hd hsg he1 he2
    · rw [hs] at hu ⊢
      simp only [headUpperAG] at hu
      simp only [isAccHB, decide_eq_true_eq] at ha
      rcases ha with rfl | rfl
      · rw [(fixCents7 l d sg e1 e2 hu hd hsg he1 he2).2]
        exact fixCents7 l d sg e1 e2 hu hd hsg he1 he2
      · simp only [decide_eq_true_eq, List.mem_cons, List.not_mem_nil,
          or_false] at hu
        rcases hu with rfl | rfl | rfl | rfl | rfl | rfl | rfl
        · have h1 : UtilsNotes.normalize_note_string ['A', 'b', d, sg, e1, e2, 'c'] =
              ['G', '#', d, sg, e1, e2, 'c'] := by
            simp [UtilsNotes.normalize_note_string, UtilsNotes.cleanNote,
          UtilsNotes.pyStrip, UtilsNotes.isWsp, UtilsNotes.replUnicode,
          UtilsNotes.to_sharp, UtilsNotes.flatRewrite, UtilsNotes.flats,
          UtilsNotes.capitalizeNote, matchMarkedNote, isArrowC, isAccHB,
          List.find?, List.isPrefixOf, digitFacts hd, signFacts hsg, digitFacts he1, digitFacts he2]
          rw [h1]
          exact fixCents7 'G' d sg e1 e2 rfl hd hsg he1 he2
        · have h1 : UtilsNotes.normalize_note_string ['B', 'b', d, sg, e1, e2, 'c'] =
              ['A', '#', d, sg, e1, e2, 'c'] := by
            simp [UtilsNotes.normalize_note_string, UtilsNotes.cleanNote,
          UtilsNotes.pyStrip, UtilsNotes.isWsp, UtilsNotes.replUnicode,
          UtilsNotes.to_sharp, UtilsNotes.flatRewrite, UtilsNotes.flats,
          UtilsNotes.capitalizeNote, matchMarkedNote, isArrowC, isAccHB,
          List.find?, List.isPrefixOf, digitFacts hd, signFacts hsg, digitFacts he1, digitFacts he2]
          rw [h1]
          exact fixCents7 'A' d sg e1 e2 rfl hd hsg he1 he2
        · have h1 : UtilsNotes.normalize_note_string ['C', 'b', d, sg, e1, e2, 'c'] =
              ['B', d, sg, e1, e2, 'c'] := by
            simp [UtilsNotes.normalize_note_string, UtilsNotes.cleanNote,
          UtilsNotes.pyStrip, UtilsNotes.isWsp, UtilsNotes.replUnicode,
          UtilsNotes.to_sharp, UtilsNotes.flatRewrite, UtilsNotes.flats,
          UtilsNotes.capitalizeNote, matchMarkedNote, isArrowC, isAccHB,
          List.find?, List.isPrefixOf, digitFacts hd, signFacts hsg, digitFacts he1, digitFacts he2]
          rw [h1]
          exact fixCents6b 'B' d sg e1 e2 rfl hd hsg he1 he2
        · have h1 : UtilsNotes.normalize_note_string ['D', 'b', d, sg, e1, e2, 'c'] =
              ['C', '#', d, sg, e1, e2, 'c'] := by
            simp [UtilsNotes.normalize_note_string, UtilsNotes.cleanNote,
          UtilsNotes.pyStrip, UtilsNotes.isWsp, UtilsNotes.replUnicode,
          UtilsNotes.to_sharp, UtilsNotes.flatRewrite, UtilsNotes.flats,
          UtilsNotes.capitalizeNote, matchMarkedNote, isArrowC, isAccHB,
          List.find?, List.isPrefixOf, digitFacts hd, signFacts hsg, digitFacts he1, digitFacts he2]
          rw [h1]
          exact fixCents7 'C' d sg e1 e2 rfl hd hsg he1 he2
        · have h1 : UtilsNotes.normalize_note_string ['E', 'b', d, sg, e1, e2, 'c'] =
              ['D', '#', d, sg, e1, e2, 'c'] := by
            simp [UtilsNotes.normalize_note_string, UtilsNotes.cleanNote,
          UtilsNotes.pyStrip, UtilsNotes.isWsp, UtilsNotes.replUnicode,
          UtilsNotes.to_sharp, UtilsNotes.flatRewrite, UtilsNotes.flats,
          UtilsNotes.capitalizeNote, matchMarkedNote, isArrowC, isAccHB,
          List.find?, List.isPrefixOf, digitFacts hd, signFacts hsg, digitFacts he1, digitFacts he2]
          rw [h1]
          exact fixCents7 'D' d sg e1 e2 rfl hd hsg he1 he2
        · have h1 : UtilsNotes.normalize_note_string ['F', 'b', d, sg, e1, e2, 'c'] =
              ['E', d, sg, e1, e2, 'c'] := by
            simp [UtilsNotes.normalize_note_string, UtilsNotes.cleanNote,
          UtilsNotes.pyStrip, UtilsNotes.isWsp, UtilsNotes.replUnicode,
          UtilsNotes.to_sharp, UtilsNotes.flatRewrite, UtilsNotes.flats,
          UtilsNotes.capitalizeNote, matchMarkedNote, isArrowC, isAccHB,
          List.find?, List.isPrefixOf, digitFacts hd, signFacts hsg, digitFacts he1, digitFacts he2]
          rw [h1]
          exact fixCents6b 'E' d sg e1 e2 rfl hd hsg he1 he2
        · have h1 : UtilsNotes.normalize_note_string ['G', 'b', d, sg, e1, e2, 'c'] =
              ['F', '#', d, sg, e1, e2, 'c'] := by
            simp [UtilsNotes.normalize_note_string, UtilsNotes.cleanNote,
          UtilsNotes.pyStrip, UtilsNotes.isWsp, UtilsNotes.replUnicode,
          UtilsNotes.to_sharp, UtilsNotes.flatRewrite, UtilsNotes.flats,
          UtilsNotes.capitalizeNote, matchMarkedNote, isArrowC, isAccHB,
          List.find?, List.isPrefixOf, digitFacts hd, signFacts hsg, digitFacts he1, digitFacts he2]
          rw [h1]
          exact fixCents7 'F' d sg e1 e2 rfl hd hsg he1 he2

/-- Witness for C7 (amended) at the note `C#4`. -/
theorem normalize_idempotent_amended_witness :
    UtilsNotes.is_valid_note ("C#4") = true ∧
    headUpperAG ("C#4").data = true ∧
    (UtilsNotes.to_sharp (UtilsNotes.normalize_note_string (("C#4").data)) =
       UtilsNotes.normalize_note_string (("C#4").data) ∧
     UtilsNotes.normalize_note_string
         (UtilsNotes.normalize_note_string (("C#4").data)) =
       UtilsNotes.normalize_note_string (("C#4").data)) :=
  ⟨rfl, rfl, normalize_idempotent_amended ("C#4") rfl rfl⟩

/-- C7 (counterexample): the validator accepts the lower-case flat note
`db4`, but normalization is not idempotent on it: one pass gives `Db4`
(capitalization masks the flat rewrite), a second pass gives `C#4`. -/
theorem normalize_idempotent_counterexample :
    UtilsNotes.is_valid_note ("db4") = true ∧
    UtilsNotes.normalize_note_string (("db4").data) = ("Db4").data ∧
    UtilsNotes.normalize_note_string (("Db4").data) = ("C#4").data ∧
    UtilsNotes.normalize_note_string
        (UtilsNotes.normalize_note_string (("db4").data)) ≠
      UtilsNotes.normalize_note_string (("db4").data) := by
  refine ⟨rfl, rfl, rfl, ?_⟩
  intro h
  rw [show UtilsNotes.normalize_note_string
        (UtilsNotes.normalize_note_string (("db4").data)) = ("C#4").data
      from rfl,
    show UtilsNotes.normalize_note_string (("db4").data) = ("Db4").data
      from rfl] at h
  exact absurd h (by decide)

end DensityAnalyser
